import Mathlib

/-!
# rviz_textured_sphere : `SphereDisplay`

A shallow embedding of `src/sphere_display.cpp`.

* Part 1 embeds the mesh builder `SphereDisplay::createSphereMesh`.  The
  floating-point computations are written once, over an arbitrary ordered
  field `α` with the primitives `sinf`, `cosf`, `sqrt` and `M_PI` passed in a
  record; the theorems read them over the real numbers.  The unsigned
  counters and buffer sizes are natural numbers reduced modulo `2^16` and
  `2^32` exactly where the C++ types wrap.
* Part 2 embeds the image pipeline (`updateFrontCameraImage`,
  `updateRearCameraImage`, `update`, `updateTexture`, `imageToTexture`) as
  explicit state passing over the fields of the display object.
-/

namespace rviz

/-! ## Part 1 : the mesh builder -/

/-- The primitives of `<cmath>` that the mesh builder calls. -/
structure MathOps (α : Type) where
  /-- The constant `M_PI`. -/
  pi : α
  /-- The function `sinf`. -/
  sinf : α → α
  /-- The function `cosf`. -/
  cosf : α → α
  /-- The square root used by `Ogre::Math::Sqrt`. -/
  sqrt : α → α

/-- An `Ogre::Vector2`. -/
structure Vector2 (α : Type) where
  x : α
  y : α
deriving DecidableEq, Repr

/-- An `Ogre::Vector3`. -/
structure Vector3 (α : Type) where
  x : α
  y : α
  z : α
deriving DecidableEq, Repr

/-- One vertex of the vertex buffer, ten floats in the order in which
`createSphereMesh` writes them: position (3), normal (3), texture
coordinates 0 (2, front camera) and texture coordinates 1 (2, rear camera). -/
structure Vertex (α : Type) where
  position : Vector3 α
  normal : Vector3 α
  uv0 : Vector2 α
  uv1 : Vector2 α
deriving DecidableEq, Repr

/-- The ten floats of a vertex, in buffer order. -/
def Vertex.floats {α : Type} (v : Vertex α) : List α :=
  [v.position.x, v.position.y, v.position.z,
   v.normal.x, v.normal.y, v.normal.z,
   v.uv0.x, v.uv0.y, v.uv1.x, v.uv1.y]

/-- The values of the three float properties of the display
(`fov_front_property_`, `fov_rear_property_`, `debug_property_`). -/
structure Properties (α : Type) where
  fov_front_property_ : α
  fov_rear_property_ : α
  debug_property_ : α
deriving DecidableEq, Repr

/-- Truncation to `unsigned short`. -/
def u16 (n : Nat) : Nat := n % 65536

/-- Truncation to `unsigned int`. -/
def u32 (n : Nat) : Nat := n % 4294967296

/-- The six indices one pass of the inner loop writes for a ring other than
the last, when `vertex_index` has the value `vertex_index`: the triangles
`(vertex_index + segment_cnt + 1, vertex_index + segment_cnt, vertex_index)`
and `(vertex_index + 1, vertex_index + segment_cnt + 1, vertex_index)`, the
sums computed in `unsigned int` and stored as `unsigned short`. -/
def faceIndices (segment_cnt vertex_index : Nat) : List Nat :=
  [u16 (u32 (vertex_index + segment_cnt + 1)),
   u16 (u32 (vertex_index + segment_cnt)),
   vertex_index,
   u16 (vertex_index + 1),
   u16 (u32 (vertex_index + segment_cnt + 1)),
   vertex_index]

section Builder

variable {α : Type} [LinearOrderedField α]

/-- The property values the constructor of `SphereDisplay` installs:
`FOV front = 235.0`, `FOV rear = 235.0`, `Debug value = 0.0f`. -/
def Properties.initial : Properties α :=
  { fov_front_property_ := 235, fov_rear_property_ := 235, debug_property_ := 0 }

/-- The function `angles::from_degrees`: `degrees * M_PI / 180.0`. -/
def from_degrees (ops : MathOps α) (degrees : α) : α := degrees * ops.pi / 180

/-- The method `Ogre::Vector3::normalisedCopy`: the vector divided by its
length when the length is positive, the vector itself otherwise. -/
def Vector3.normalisedCopy (ops : MathOps α) (v : Vector3 α) : Vector3 α :=
  let fLength := ops.sqrt (v.x * v.x + v.y * v.y + v.z * v.z)
  if fLength > 0 then
    let fInvLength := 1 / fLength
    { x := v.x * fInvLength, y := v.y * fInvLength, z := v.z * fInvLength }
  else v

/-- Unary minus of `Ogre::Vector3`. -/
def Vector3.neg (v : Vector3 α) : Vector3 α := { x := -v.x, y := -v.y, z := -v.z }

/-- The method `Ogre::Vector2::normalise`, as the vector it leaves behind. -/
def Vector2.normalise (ops : MathOps α) (v : Vector2 α) : Vector2 α :=
  let fLength := ops.sqrt (v.x * v.x + v.y * v.y)
  if fLength > 0 then
    let fInvLength := 1 / fLength
    { x := v.x * fInvLength, y := v.y * fInvLength }
  else v

/-- Multiplication of an `Ogre::Vector2` by a scalar. -/
def Vector2.scale (v : Vector2 α) (k : α) : Vector2 α := { x := v.x * k, y := v.y * k }

/-- Local `delta_ring_angle = M_PI / ring_cnt`. -/
def delta_ring_angle (ops : MathOps α) (ring_cnt : Nat) : α := ops.pi / (ring_cnt : α)

/-- Local `delta_segment_angle = 2 * M_PI / segment_cnt`. -/
def delta_segment_angle (ops : MathOps α) (segment_cnt : Nat) : α :=
  2 * ops.pi / (segment_cnt : α)

/-- Local `lens_fov = angles::from_degrees(180)`. -/
def lens_fov (ops : MathOps α) : α := from_degrees ops 180

/-- Local `cropped_fov = angles::from_degrees(180)`. -/
def cropped_fov (ops : MathOps α) : α := from_degrees ops 180

/-- Local `scaling_factor = M_PI / lens_fov`. -/
def scaling_factor (ops : MathOps α) : α := ops.pi / lens_fov ops

/-- Local `view_center_front = M_PI`. -/
def view_center_front (ops : MathOps α) : α := ops.pi

/-- Local `view_center_rear = 2 * M_PI`. -/
def view_center_rear (ops : MathOps α) : α := 2 * ops.pi

/-- Local `v_angle = ring * delta_ring_angle`. -/
def v_angle (ops : MathOps α) (ring_cnt ring : Nat) : α :=
  (ring : α) * delta_ring_angle ops ring_cnt

/-- Local `u_angle = seg * delta_segment_angle`. -/
def u_angle (ops : MathOps α) (segment_cnt seg : Nat) : α :=
  (seg : α) * delta_segment_angle ops segment_cnt

/-- Local `v_arg = (v_angle + lens_fov/2 - M_PI_2) * scaling_factor`. -/
def v_arg (ops : MathOps α) (ring_cnt ring : Nat) : α :=
  (v_angle ops ring_cnt ring + lens_fov ops / 2 - ops.pi / 2) * scaling_factor ops

/-- Locals `u_arg_front` and `u_arg_rear`:
`(u_angle + lens_fov/2 - view_center) * scaling_factor`. -/
def u_arg (ops : MathOps α) (view_center : α) (segment_cnt seg : Nat) : α :=
  (u_angle ops segment_cnt seg + lens_fov ops / 2 - view_center) * scaling_factor ops

/-- The test of the two cropping branches:
`u_angle <= view_center - cropped_fov/2 || u_angle >= view_center + cropped_fov/2`. -/
def cropTest (ops : MathOps α) (view_center : α) (segment_cnt seg : Nat) : Prop :=
  u_angle ops segment_cnt seg ≤ view_center - cropped_fov ops / 2 ∨
    u_angle ops segment_cnt seg ≥ view_center + cropped_fov ops / 2

instance (ops : MathOps α) (view_center : α) (segment_cnt seg : Nat) :
    Decidable (cropTest ops view_center segment_cnt seg) := by
  unfold cropTest; infer_instance

/-- The body of a cropping branch (the front and the rear branch have the
same body): halve and shift, normalise, scale by 10 and replace the zero
vector by `(10, 10)`. -/
def cropBody (ops : MathOps α) (u v : α) : Vector2 α :=
  let u1 := u * 0.5 + 0.5
  let v1 := v * 0.5 + 0.5
  let uv := (Vector2.normalise ops { x := u1, y := v1 }).scale 10
  if uv.x = 0 ∧ uv.y = 0 then { x := 10, y := 10 } else uv

/-- The texture coordinates `(u, v)` of one camera before they are stored:
the locals `u_front, v_front` (for `view_center_front`) and `u_rear, v_rear`
(for `view_center_rear`) after the debug scaling and the cropping branch. -/
def slotUV (ops : MathOps α) (props : Properties α) (view_center : α)
    (ring_cnt segment_cnt ring seg : Nat) : Vector2 α :=
  let uv_r0 := ops.sinf (v_arg ops ring_cnt ring)
  let v := ops.cosf (v_arg ops ring_cnt ring)
  let u := uv_r0 * ops.cosf (u_arg ops view_center segment_cnt seg)
  let u := u * 0.5 * props.debug_property_ + 0.5
  let v := v * 0.5 * props.debug_property_ + 0.5
  if cropTest ops view_center segment_cnt seg then cropBody ops u v
  else { x := u, y := v }

/-- The ten floats that one pass of the inner loop of `createSphereMesh`
writes for ring `ring` and segment `seg`. -/
def sphereVertex (ops : MathOps α) (props : Properties α) (r : α)
    (ring_cnt segment_cnt ring seg : Nat) : Vertex α :=
  let r0 := r * ops.sinf ((ring : α) * delta_ring_angle ops ring_cnt)
  let y0 := r * ops.cosf ((ring : α) * delta_ring_angle ops ring_cnt)
  let x0 := r0 * ops.sinf ((seg : α) * delta_segment_angle ops segment_cnt)
  let z0 := r0 * ops.cosf ((seg : α) * delta_segment_angle ops segment_cnt)
  let normal := (Vector3.normalisedCopy ops { x := x0, y := y0, z := z0 }).neg
  let front := slotUV ops props (view_center_front ops) ring_cnt segment_cnt ring seg
  let rear := slotUV ops props (view_center_rear ops) ring_cnt segment_cnt ring seg
  { position := { x := x0, y := y0, z := z0 }
    normal := normal
    uv0 := { x := front.x, y := 1 - front.y }
    uv1 := { x := rear.x, y := 1 - rear.y } }

/-- What the two nested loops of `createSphereMesh` have written so far:
the vertices behind the cursor `vertex`, the indices behind the cursor
`indices`, and the `unsigned short vertex_index`. -/
structure LoopState (α : Type) where
  vertex : List (Vertex α)
  indices : List Nat
  vertex_index : Nat
deriving DecidableEq, Repr

/-- The body of the inner loop `for (seg = 0; seg <= segment_cnt; seg++)`. -/
def segmentBody (ops : MathOps α) (props : Properties α) (r : α)
    (ring_cnt segment_cnt ring : Nat) (st : LoopState α) (seg : Nat) : LoopState α :=
  let vertex := st.vertex ++ [sphereVertex ops props r ring_cnt segment_cnt ring seg]
  if ring ≠ ring_cnt then
    { vertex := vertex
      indices := st.indices ++
        [u16 (u32 (st.vertex_index + segment_cnt + 1)),
         u16 (u32 (st.vertex_index + segment_cnt)),
         st.vertex_index,
         u16 (st.vertex_index + 1),
         u16 (u32 (st.vertex_index + segment_cnt + 1)),
         st.vertex_index]
      vertex_index := u16 (st.vertex_index + 1) }
  else
    { st with vertex := vertex }

/-- The body of the outer loop `for (ring = 0; ring <= ring_cnt; ring++)`:
the whole inner loop. -/
def ringBody (ops : MathOps α) (props : Properties α) (r : α)
    (ring_cnt segment_cnt : Nat) (st : LoopState α) (ring : Nat) : LoopState α :=
  (List.range (segment_cnt + 1)).foldl
    (segmentBody ops props r ring_cnt segment_cnt ring) st

/-- The vertices one pass of the outer loop writes: those of ring `ring`. -/
def ringVertices (ops : MathOps α) (props : Properties α) (r : α)
    (ring_cnt segment_cnt ring : Nat) : List (Vertex α) :=
  (List.range (segment_cnt + 1)).map (sphereVertex ops props r ring_cnt segment_cnt ring)

/-- The mesh as `createSphereMesh` leaves it: the sizes with which the two
hardware buffers were allocated and what the loops wrote through the two
cursors. -/
structure Mesh (α : Type) where
  /-- The field `vertexCount`, the number of vertices of the vertex buffer. -/
  vertexCount : Nat
  /-- The field `indexCount`, the number of 16-bit indices of the index buffer. -/
  indexCount : Nat
  /-- The vertices written through `vertex`, in order. -/
  vertex : List (Vertex α)
  /-- The indices written through `indices`, in order. -/
  indices : List Nat
deriving DecidableEq, Repr

/-- The method `SphereDisplay::createSphereMesh(mesh_name, r, ring_cnt, segment_cnt)`.
The counts are `unsigned int`; the loop counters are taken as natural numbers,
which is what the `int` counters are for counts below `2^31`. -/
def createSphereMesh (ops : MathOps α) (props : Properties α) (r : α)
    (ring_cnt segment_cnt : Nat) : Mesh α :=
  let st := (List.range (ring_cnt + 1)).foldl
    (ringBody ops props r ring_cnt segment_cnt)
    { vertex := [], indices := [], vertex_index := 0 }
  { vertexCount := u32 (u32 (ring_cnt + 1) * u32 (segment_cnt + 1))
    indexCount := u32 (u32 (6 * ring_cnt) * u32 (segment_cnt + 1))
    vertex := st.vertex
    indices := st.indices }

/-- The mesh that `SphereDisplay::createSphere` builds:
`createSphereMesh(ROS_PACKAGE_NAME "_mesh", 10, 64, 64)`. -/
def createSphere (ops : MathOps α) (props : Properties α) : Mesh α :=
  createSphereMesh ops props 10 64 64

/-- A texture coordinate pair lies in the texture domain `[0,1] x [0,1]`. -/
def inTextureDomain (uv : Vector2 α) : Prop :=
  0 ≤ uv.x ∧ uv.x ≤ 1 ∧ 0 ≤ uv.y ∧ uv.y ≤ 1

end Builder

/-- The floats of the vertex buffer, in order. -/
def Mesh.vertexFloats {α : Type} (m : Mesh α) : List α := m.vertex.flatMap Vertex.floats

/-- The real-number reading of the primitives. -/
noncomputable def realOps : MathOps ℝ :=
  { pi := Real.pi, sinf := Real.sin, cosf := Real.cos, sqrt := Real.sqrt }

/-- A rational reading of the primitives with crude stand-ins for the
transcendental functions, for running the builder. -/
def testOps : MathOps ℚ :=
  { pi := 355 / 113, sinf := fun x => x - x * x * x / 6,
    cosf := fun x => 1 - x * x / 2, sqrt := fun x => x }

/-! ## Part 2 : the image pipeline -/

/-- Pixel encodings of `sensor_msgs::image_encodings` (a selection). -/
inductive Encoding where
  | RGB8
  | RGBA8
  | BGR8
  | MONO8
  | TYPE_32FC1
deriving DecidableEq, Repr

/-- A `sensor_msgs::Image`, as far as the display looks at it. -/
structure Image where
  encoding : Encoding
  width : Nat
  height : Nat
  data : List Nat
deriving DecidableEq, Repr

/-- The two library routines the pipeline calls whose result depends on the
pixel encoding of a message. -/
structure Library where
  /-- The call `cv_bridge::toCvCopy(msg, RGBA8)` followed by `toImageMsg()`:
  the RGBA8 message, or `none` when `cv_bridge::Exception` is thrown. -/
  toCvCopy : Image → Option Image
  /-- Whether `ROSImageTexture::update` knows the encoding; it throws
  `UnsupportedImageEncoding` when it does not. -/
  knownEncoding : Encoding → Bool

/-- An `rviz::ROSImageTexture` object on the heap. -/
structure ROSImageTexture where
  /-- The address of the object: the value of a pointer to it. -/
  addr : Nat
  /-- The member `current_image_`, null until the first `addMessage`. -/
  current_image_ : Option Image
  /-- The member `new_image_`. -/
  new_image_ : Bool
  /-- The image last loaded into the Ogre texture `texture_`, `none` for the
  empty texture the constructor creates. -/
  texture_ : Option Image
deriving DecidableEq, Repr

/-- The constructor `ROSImageTexture()` for an object allocated at `addr`. -/
def ROSImageTexture.new (addr : Nat) : ROSImageTexture :=
  { addr := addr, current_image_ := none, new_image_ := false, texture_ := none }

/-- The method `ROSImageTexture::addMessage`. -/
def ROSImageTexture.addMessage (t : ROSImageTexture) (msg : Image) : ROSImageTexture :=
  { t with current_image_ := some msg, new_image_ := true }

/-- The method `ROSImageTexture::update`, as the object it leaves behind:
nothing happens without a new image; otherwise `new_image_` is cleared and the
image is loaded into the texture unless it has no data or its encoding is
unknown (the exception thrown then is caught in `updateTexture`). -/
def ROSImageTexture.update (lib : Library) (t : ROSImageTexture) : ROSImageTexture :=
  match t.current_image_, t.new_image_ with
  | some image, true =>
    if image.data.isEmpty then { t with new_image_ := false }
    else if lib.knownEncoding image.encoding then
      { t with new_image_ := false, texture_ := some image }
    else { t with new_image_ := false }
  | _, _ => t

/-- Pass 0 of technique 0 of the sphere material: for each of its texture
unit states the texture it samples, given by the address of the
`ROSImageTexture` whose texture `setTexture` installed, and `none` as long as
the display has installed none. -/
structure Pass where
  textureUnitStates : List (Option Nat)
deriving DecidableEq, Repr

/-- The material `sphere_material_` points to; `pass` is
`getTechnique(0)->getPass(0)`, which may be null. -/
structure Material where
  pass : Option Pass
deriving DecidableEq, Repr

/-- The members of `SphereDisplay` the image pipeline reads and writes. -/
structure SphereDisplay where
  texture_front_ : Option ROSImageTexture
  texture_rear_ : Option ROSImageTexture
  cur_image_front_ : Option Image
  cur_image_rear_ : Option Image
  new_front_image_arrived_ : Bool
  new_rear_image_arrived_ : Bool
  sphere_material_ : Option Material
  /-- The address the next `new ROSImageTexture()` returns. -/
  next_addr : Nat
deriving DecidableEq, Repr

/-- The camera a `ROSImageTexture*&` argument refers to: the member
`texture_front_` or the member `texture_rear_`. -/
inductive Slot where
  | front
  | rear
deriving DecidableEq, Repr

/-- Reading a `ROSImageTexture*&`. -/
def SphereDisplay.texture (s : SphereDisplay) : Slot → Option ROSImageTexture
  | Slot.front => s.texture_front_
  | Slot.rear => s.texture_rear_

/-- Writing through a `ROSImageTexture*&`. -/
def SphereDisplay.setTexture (s : SphereDisplay) (slot : Slot)
    (t : Option ROSImageTexture) : SphereDisplay :=
  match slot with
  | Slot.front => { s with texture_front_ := t }
  | Slot.rear => { s with texture_rear_ := t }

/-- The value of a `ROSImageTexture*`: null or the address of the object. -/
def ptr (t : Option ROSImageTexture) : Option Nat := t.map ROSImageTexture.addr

/-- The display after the constructor and `onInitialize`: no textures, no
images, and `sphere_material_` as `createSphere` found it. -/
def SphereDisplay.initial (material : Option Material) : SphereDisplay :=
  { texture_front_ := none, texture_rear_ := none
    cur_image_front_ := none, cur_image_rear_ := none
    new_front_image_arrived_ := false, new_rear_image_arrived_ := false
    sphere_material_ := material
    next_addr := 0 }

/-- The method `SphereDisplay::updateFrontCameraImage`. -/
def updateFrontCameraImage (s : SphereDisplay) (image : Image) : SphereDisplay :=
  { s with cur_image_front_ := some image, new_front_image_arrived_ := true }

/-- The method `SphereDisplay::updateRearCameraImage`. -/
def updateRearCameraImage (s : SphereDisplay) (image : Image) : SphereDisplay :=
  { s with cur_image_rear_ := some image, new_rear_image_arrived_ := true }

/-- The method `SphereDisplay::imageToTexture(texture, msg)`, with `slot`
for the member `texture` refers to.  The result is `none` when the call
dereferences a null message.  `is_front_texture` compares pointer values;
`getTextureUnitState(index)` is null when the pass has no unit `index`. -/
def imageToTexture (lib : Library) (s : SphereDisplay) (slot : Slot)
    (msg : Option Image) : Option SphereDisplay :=
  match msg with
  | none => none
  | some m =>
    match lib.toCvCopy m with
    | none => some s
    | some rgba =>
      let is_front_texture : Bool := decide (ptr (s.texture slot) = ptr s.texture_front_)
      match s.texture slot with
      | some t => some (s.setTexture slot (some (t.addMessage rgba)))
      | none =>
        let t := ROSImageTexture.new s.next_addr
        let s1 := { s.setTexture slot (some t) with next_addr := s.next_addr + 1 }
        match s1.sphere_material_ with
        | none => some s1
        | some material =>
          match material.pass with
          | none => some s1
          | some pass =>
            let index := if is_front_texture then 0 else 1
            if index < pass.textureUnitStates.length then
              let pass1 : Pass :=
                { textureUnitStates := pass.textureUnitStates.set index (some t.addr) }
              some { s1 with sphere_material_ := some { pass := some pass1 } }
            else some s1

/-- The method `SphereDisplay::updateTexture(texture)`. -/
def updateTexture (lib : Library) (s : SphereDisplay) (slot : Slot) : SphereDisplay :=
  match s.texture slot with
  | none => s
  | some t => s.setTexture slot (some (t.update lib))

/-- The block `if (new_front_image_arrived_) ...` of `update`. -/
def updateFront (lib : Library) (s : SphereDisplay) : Option SphereDisplay :=
  if s.new_front_image_arrived_ then
    match imageToTexture lib s Slot.front s.cur_image_front_ with
    | none => none
    | some s1 => some { updateTexture lib s1 Slot.front with new_front_image_arrived_ := false }
  else some s

/-- The block `if (new_rear_image_arrived_) ...` of `update`. -/
def updateRear (lib : Library) (s : SphereDisplay) : Option SphereDisplay :=
  if s.new_rear_image_arrived_ then
    match imageToTexture lib s Slot.rear s.cur_image_rear_ with
    | none => none
    | some s1 => some { updateTexture lib s1 Slot.rear with new_rear_image_arrived_ := false }
  else some s

/-- The method `SphereDisplay::update`: the front block, then the rear block
(the render request that follows touches none of the members above). -/
def update (lib : Library) (s : SphereDisplay) : Option SphereDisplay :=
  match updateFront lib s with
  | none => none
  | some s1 => updateRear lib s1

/-- What can happen to the display: a frame arrives for a camera, or the
renderer calls `update`. -/
inductive Event where
  | frontImage (image : Image)
  | rearImage (image : Image)
  | tick
deriving DecidableEq, Repr

/-- One event. -/
def step (lib : Library) (s : SphereDisplay) : Event → Option SphereDisplay
  | Event.frontImage image => some (updateFrontCameraImage s image)
  | Event.rearImage image => some (updateRearCameraImage s image)
  | Event.tick => update lib s

/-- A sequence of events, left to right. -/
def run (lib : Library) (s : SphereDisplay) : List Event → Option SphereDisplay
  | [] => some s
  | e :: es =>
    match step lib s e with
    | none => none
    | some s1 => run lib s1 es

/-- The states the display can be in: those a sequence of events leads to
from the initial state. -/
def Reachable (lib : Library) (s : SphereDisplay) : Prop :=
  ∃ (material : Option Material) (events : List Event),
    run lib (SphereDisplay.initial material) events = some s

/-- A message with the given encoding tag and one pixel. -/
def testImage (encoding : Encoding) (pixel : Nat) : Image :=
  { encoding := encoding, width := 1, height := 1, data := [pixel, pixel, pixel, 255] }

/-- A library that converts every encoding except `TYPE_32FC1` to RGBA8 and
whose texture loads every encoding. -/
def testLibrary : Library :=
  { toCvCopy := fun m =>
      if m.encoding = Encoding.TYPE_32FC1 then none
      else some { m with encoding := Encoding.RGBA8 }
    knownEncoding := fun _ => true }

/-- A sphere material whose pass has two texture unit states. -/
def testMaterial : Option Material :=
  some { pass := some { textureUnitStates := [none, none] } }

/-- A frame arrives for the camera `slot`: `updateFrontCameraImage` or
`updateRearCameraImage`. -/
def updateCameraImage (s : SphereDisplay) : Slot → Image → SphereDisplay
  | Slot.front, image => updateFrontCameraImage s image
  | Slot.rear, image => updateRearCameraImage s image

/-- What holds of the display between two events: a camera whose flag is set
has an image, and no texture has a message that was not yet loaded. -/
def Settled (s : SphereDisplay) : Prop :=
  (s.new_front_image_arrived_ = true → s.cur_image_front_ ≠ none) ∧
  (s.new_rear_image_arrived_ = true → s.cur_image_rear_ ≠ none) ∧
  (∀ t, s.texture_front_ = some t → t.new_image_ = false) ∧
  (∀ t, s.texture_rear_ = some t → t.new_image_ = false)

/-- The display after one front frame and one `update`: the front texture
exists and has been given no message yet. -/
def testStateFront : SphereDisplay :=
  { texture_front_ := some (ROSImageTexture.new 0), texture_rear_ := none
    cur_image_front_ := some (testImage Encoding.RGB8 1), cur_image_rear_ := none
    new_front_image_arrived_ := false, new_rear_image_arrived_ := false
    sphere_material_ := some { pass := some { textureUnitStates := [some 0, none] } }
    next_addr := 1 }

/-- The display in which both textures show a frame (pixel 1 in front, pixel 2
in the rear) and a front frame that cannot be converted is pending. -/
def testStateBoth : SphereDisplay :=
  { texture_front_ := some
      { addr := 0, current_image_ := some (testImage Encoding.RGBA8 1), new_image_ := false
        texture_ := some (testImage Encoding.RGBA8 1) }
    texture_rear_ := some
      { addr := 1, current_image_ := some (testImage Encoding.RGBA8 2), new_image_ := false
        texture_ := some (testImage Encoding.RGBA8 2) }
    cur_image_front_ := some (testImage Encoding.TYPE_32FC1 7)
    cur_image_rear_ := some (testImage Encoding.RGB8 2)
    new_front_image_arrived_ := true, new_rear_image_arrived_ := false
    sphere_material_ := some { pass := some { textureUnitStates := [some 0, some 1] } }
    next_addr := 2 }

/-! # Theorems -/

/-! ## Part 1 : the loops in closed form -/

section BuilderLemmas

variable {α : Type} [LinearOrderedField α]

theorem segmentBody_vertex (ops : MathOps α) (props : Properties α) (r : α)
    (ring_cnt segment_cnt ring : Nat) (st : LoopState α) (seg : Nat) :
    (segmentBody ops props r ring_cnt segment_cnt ring st seg).vertex =
      st.vertex ++ [sphereVertex ops props r ring_cnt segment_cnt ring seg] := by
  unfold segmentBody
  split <;> rfl

theorem segmentBody_indices_length (ops : MathOps α) (props : Properties α) (r : α)
    (ring_cnt segment_cnt ring : Nat) (st : LoopState α) (seg : Nat) :
    (segmentBody ops props r ring_cnt segment_cnt ring st seg).indices.length =
      st.indices.length + (if ring ≠ ring_cnt then 6 else 0) := by
  unfold segmentBody
  split <;> simp

theorem foldl_segmentBody_vertex (ops : MathOps α) (props : Properties α) (r : α)
    (ring_cnt segment_cnt ring : Nat) (l : List Nat) (st : LoopState α) :
    (l.foldl (segmentBody ops props r ring_cnt segment_cnt ring) st).vertex =
      st.vertex ++ l.map (sphereVertex ops props r ring_cnt segment_cnt ring) := by
  induction l generalizing st with
  | nil => simp
  | cons seg l ih => simp [ih, segmentBody_vertex]

theorem foldl_segmentBody_indices_length (ops : MathOps α) (props : Properties α) (r : α)
    (ring_cnt segment_cnt ring : Nat) (l : List Nat) (st : LoopState α) :
    (l.foldl (segmentBody ops props r ring_cnt segment_cnt ring) st).indices.length =
      st.indices.length + (if ring ≠ ring_cnt then 6 else 0) * l.length := by
  induction l generalizing st with
  | nil => simp
  | cons seg l ih =>
    simp only [List.foldl_cons, ih, segmentBody_indices_length, List.length_cons]
    ring

theorem ringBody_vertex (ops : MathOps α) (props : Properties α) (r : α)
    (ring_cnt segment_cnt : Nat) (st : LoopState α) (ring : Nat) :
    (ringBody ops props r ring_cnt segment_cnt st ring).vertex =
      st.vertex ++ ringVertices ops props r ring_cnt segment_cnt ring := by
  unfold ringBody ringVertices
  exact foldl_segmentBody_vertex ops props r ring_cnt segment_cnt ring _ st

theorem ringBody_indices_length (ops : MathOps α) (props : Properties α) (r : α)
    (ring_cnt segment_cnt : Nat) (st : LoopState α) (ring : Nat) :
    (ringBody ops props r ring_cnt segment_cnt st ring).indices.length =
      st.indices.length + (if ring ≠ ring_cnt then 6 else 0) * (segment_cnt + 1) := by
  unfold ringBody
  rw [foldl_segmentBody_indices_length, List.length_range]

theorem foldl_ringBody_vertex (ops : MathOps α) (props : Properties α) (r : α)
    (ring_cnt segment_cnt : Nat) (l : List Nat) (st : LoopState α) :
    (l.foldl (ringBody ops props r ring_cnt segment_cnt) st).vertex =
      st.vertex ++ l.flatMap (ringVertices ops props r ring_cnt segment_cnt) := by
  induction l generalizing st with
  | nil => simp
  | cons ring l ih => simp [ih, ringBody_vertex]

theorem foldl_ringBody_indices_length (ops : MathOps α) (props : Properties α) (r : α)
    (ring_cnt segment_cnt : Nat) (n : Nat) (hn : n ≤ ring_cnt) (st : LoopState α) :
    ((List.range n).foldl (ringBody ops props r ring_cnt segment_cnt) st).indices.length =
      st.indices.length + 6 * n * (segment_cnt + 1) := by
  induction n with
  | zero => simp
  | succ n ih =>
    have hne : n ≠ ring_cnt := by omega
    rw [List.range_succ, List.foldl_append, List.foldl_cons, List.foldl_nil,
      ringBody_indices_length, ih (by omega), if_pos hne]
    ring

/-- The vertices `createSphereMesh` writes, ring after ring. -/
theorem createSphereMesh_vertex (ops : MathOps α) (props : Properties α) (r : α)
    (ring_cnt segment_cnt : Nat) :
    (createSphereMesh ops props r ring_cnt segment_cnt).vertex =
      (List.range (ring_cnt + 1)).flatMap (ringVertices ops props r ring_cnt segment_cnt) := by
  unfold createSphereMesh
  simp [foldl_ringBody_vertex]

theorem length_flatMap_ringVertices (ops : MathOps α) (props : Properties α) (r : α)
    (ring_cnt segment_cnt n : Nat) :
    ((List.range n).flatMap (ringVertices ops props r ring_cnt segment_cnt)).length =
      n * (segment_cnt + 1) := by
  induction n with
  | zero => simp
  | succ n ih =>
    rw [List.range_succ, List.flatMap_append, List.length_append, ih]
    simp [ringVertices]
    ring

/-- The number of vertices `createSphereMesh` writes. -/
theorem createSphereMesh_vertex_length (ops : MathOps α) (props : Properties α) (r : α)
    (ring_cnt segment_cnt : Nat) :
    (createSphereMesh ops props r ring_cnt segment_cnt).vertex.length =
      (ring_cnt + 1) * (segment_cnt + 1) := by
  rw [createSphereMesh_vertex, length_flatMap_ringVertices]

/-- The number of indices `createSphereMesh` writes. -/
theorem createSphereMesh_indices_length (ops : MathOps α) (props : Properties α) (r : α)
    (ring_cnt segment_cnt : Nat) :
    (createSphereMesh ops props r ring_cnt segment_cnt).indices.length =
      6 * ring_cnt * (segment_cnt + 1) := by
  unfold createSphereMesh
  simp only
  rw [List.range_succ, List.foldl_append, List.foldl_cons, List.foldl_nil,
    ringBody_indices_length, foldl_ringBody_indices_length _ _ _ _ _ _ (le_refl _)]
  simp

/-- Reading the vertex of ring `ring` and segment `seg` from the buffer. -/
theorem getElem?_flatMap_ringVertices (ops : MathOps α) (props : Properties α) (r : α)
    (ring_cnt segment_cnt n ring seg : Nat) (hring : ring < n) (hseg : seg ≤ segment_cnt) :
    ((List.range n).flatMap (ringVertices ops props r ring_cnt segment_cnt))[
        ring * (segment_cnt + 1) + seg]? =
      some (sphereVertex ops props r ring_cnt segment_cnt ring seg) := by
  induction n with
  | zero => omega
  | succ n ih =>
    rw [List.range_succ, List.flatMap_append, List.getElem?_append,
      length_flatMap_ringVertices]
    by_cases h : ring < n
    · have : ring * (segment_cnt + 1) + seg < n * (segment_cnt + 1) := by
        have : (ring + 1) * (segment_cnt + 1) ≤ n * (segment_cnt + 1) :=
          Nat.mul_le_mul_right _ h
        nlinarith
      rw [if_pos this]
      exact ih h
    · have hrn : ring = n := by omega
      subst hrn
      have : ¬ ring * (segment_cnt + 1) + seg < ring * (segment_cnt + 1) := by omega
      rw [if_neg this]
      rw [Nat.add_sub_cancel_left]
      simp only [ringVertices, List.flatMap_singleton, List.getElem?_map]
      rw [List.getElem?_range (by omega)]
      rfl

/-- The vertex of ring `ring` and segment `seg` sits at position
`ring * (segment_cnt + 1) + seg` of the vertex buffer. -/
theorem createSphereMesh_vertex_getElem? (ops : MathOps α) (props : Properties α) (r : α)
    (ring_cnt segment_cnt ring seg : Nat) (hring : ring ≤ ring_cnt)
    (hseg : seg ≤ segment_cnt) :
    (createSphereMesh ops props r ring_cnt segment_cnt).vertex[
        ring * (segment_cnt + 1) + seg]? =
      some (sphereVertex ops props r ring_cnt segment_cnt ring seg) := by
  rw [createSphereMesh_vertex]
  exact getElem?_flatMap_ringVertices ops props r ring_cnt segment_cnt _ ring seg
    (by omega) hseg

end BuilderLemmas

/-! ## Part 1 : buffer sizes -/

section BuilderSizes

variable {α : Type} [LinearOrderedField α]

theorem createSphereMesh_vertexCount (ops : MathOps α) (props : Properties α) (r : α)
    (ring_cnt segment_cnt : Nat) :
    (createSphereMesh ops props r ring_cnt segment_cnt).vertexCount =
      u32 (u32 (ring_cnt + 1) * u32 (segment_cnt + 1)) := rfl

theorem createSphereMesh_indexCount (ops : MathOps α) (props : Properties α) (r : α)
    (ring_cnt segment_cnt : Nat) :
    (createSphereMesh ops props r ring_cnt segment_cnt).indexCount =
      u32 (u32 (6 * ring_cnt) * u32 (segment_cnt + 1)) := rfl

omit [LinearOrderedField α] in
theorem length_vertexFloats (m : Mesh α) : m.vertexFloats.length = 10 * m.vertex.length := by
  unfold Mesh.vertexFloats
  induction m.vertex with
  | nil => rfl
  | cons v l ih =>
    rw [List.flatMap_cons, List.length_append, ih, List.length_cons]
    simp only [Vertex.floats, List.length_cons, List.length_nil]
    omega

/-- C1 (as stated, refuted): for `ring_cnt = segment_cnt = 65535` the vertex
count `(ring_cnt + 1) * (segment_cnt + 1)` is computed in `unsigned int` and
wraps to 0, so the loops of `createSphereMesh` do not write exactly as many
vertices as the vertex buffer was allocated with. -/
theorem createSphereMesh_sizes_wrap :
    (createSphereMesh realOps Properties.initial 10 65535 65535).vertexCount = 0 ∧
    (createSphereMesh realOps Properties.initial 10 65535 65535).vertex.length = 4294967296 ∧
    ¬ ((createSphereMesh realOps Properties.initial 10 65535 65535).vertex.length =
        (createSphereMesh realOps Properties.initial 10 65535 65535).vertexCount) := by
  rw [createSphereMesh_vertexCount, createSphereMesh_vertex_length]
  refine ⟨by decide, by norm_num, ?_⟩
  have h : u32 (u32 (65535 + 1) * u32 (65535 + 1)) = 0 := by decide
  rw [h]
  norm_num

/-- C1 (amended): for `ring_cnt >= 1` and `segment_cnt >= 1` whose index count
`6 * ring_cnt * (segment_cnt + 1)` fits `unsigned int`, `createSphereMesh`
writes exactly `(ring_cnt + 1) * (segment_cnt + 1)` vertices of ten floats each
and exactly `6 * ring_cnt * (segment_cnt + 1)` indices, and these are the sizes
the two buffers were allocated with. -/
theorem createSphereMesh_sizes (ops : MathOps α) (props : Properties α) (r : α)
    (ring_cnt segment_cnt : Nat) (hring : 1 ≤ ring_cnt) (hseg : 1 ≤ segment_cnt)
    (hfit : 6 * ring_cnt * (segment_cnt + 1) < 4294967296) :
    (createSphereMesh ops props r ring_cnt segment_cnt).vertex.length =
        (ring_cnt + 1) * (segment_cnt + 1) ∧
    (createSphereMesh ops props r ring_cnt segment_cnt).vertexFloats.length =
        10 * ((ring_cnt + 1) * (segment_cnt + 1)) ∧
    (createSphereMesh ops props r ring_cnt segment_cnt).indices.length =
        6 * ring_cnt * (segment_cnt + 1) ∧
    (createSphereMesh ops props r ring_cnt segment_cnt).vertexCount =
        (createSphereMesh ops props r ring_cnt segment_cnt).vertex.length ∧
    (createSphereMesh ops props r ring_cnt segment_cnt).indexCount =
        (createSphereMesh ops props r ring_cnt segment_cnt).indices.length := by
  have hs : segment_cnt + 1 < 4294967296 := by nlinarith
  have hr6 : 6 * ring_cnt < 4294967296 := by nlinarith
  have hr : ring_cnt + 1 < 4294967296 := by omega
  have hv : (ring_cnt + 1) * (segment_cnt + 1) < 4294967296 := by nlinarith
  rw [length_vertexFloats, createSphereMesh_vertexCount, createSphereMesh_indexCount,
    createSphereMesh_vertex_length, createSphereMesh_indices_length]
  refine ⟨rfl, rfl, rfl, ?_, ?_⟩
  · unfold u32
    rw [Nat.mod_eq_of_lt hr, Nat.mod_eq_of_lt hs, Nat.mod_eq_of_lt hv]
  · unfold u32
    rw [Nat.mod_eq_of_lt hr6, Nat.mod_eq_of_lt hs, Nat.mod_eq_of_lt hfit]

/-- The sizes of the mesh `createSphere` builds (64 rings, 64 segments):
4225 vertices and 24960 indices. -/
theorem createSphereMesh_sizes_witness :
    1 ≤ 64 ∧ 6 * 64 * (64 + 1) < 4294967296 ∧
    (createSphereMesh realOps Properties.initial 10 64 64).vertex.length =
        (64 + 1) * (64 + 1) ∧
    (createSphereMesh realOps Properties.initial 10 64 64).vertexCount =
        (createSphereMesh realOps Properties.initial 10 64 64).vertex.length :=
  have h := createSphereMesh_sizes realOps Properties.initial 10 64 64
    (by decide) (by decide) (by decide)
  ⟨by decide, by decide, h.1, h.2.2.2.1⟩

end BuilderSizes

/-! ## Part 1 : the field of view -/

section BuilderFov

variable {α : Type} [LinearOrderedField α]

theorem slotUV_congr (ops : MathOps α) (props props1 : Properties α)
    (h : props.debug_property_ = props1.debug_property_) :
    slotUV ops props = slotUV ops props1 := by
  funext view_center ring_cnt segment_cnt ring seg
  unfold slotUV
  rw [h]

theorem sphereVertex_congr (ops : MathOps α) (props props1 : Properties α)
    (h : props.debug_property_ = props1.debug_property_) :
    sphereVertex ops props = sphereVertex ops props1 := by
  funext r ring_cnt segment_cnt ring seg
  unfold sphereVertex
  rw [slotUV_congr ops props props1 h]

/-- The mesh depends on the properties through `debug_property_` alone. -/
theorem createSphereMesh_congr (ops : MathOps α) (props props1 : Properties α)
    (h : props.debug_property_ = props1.debug_property_) :
    createSphereMesh ops props = createSphereMesh ops props1 := by
  funext r ring_cnt segment_cnt
  unfold createSphereMesh ringBody segmentBody
  rw [sphereVertex_congr ops props props1 h]

/-- C2 (the code at the failing input): two builds that differ only in the
`FOV front` setting, 235 against 120 degrees, give the same mesh, hence the
same texture coordinates in channel 0. -/
theorem createSphereMesh_ignores_fov :
    createSphereMesh realOps
        { fov_front_property_ := 235, fov_rear_property_ := 235, debug_property_ := 1 }
        10 64 64 =
      createSphereMesh realOps
        { fov_front_property_ := 120, fov_rear_property_ := 235, debug_property_ := 1 }
        10 64 64 := by
  exact congrFun (congrFun (congrFun (createSphereMesh_congr realOps _ _ rfl) 10) 64) 64

end BuilderFov

/-! ## Part 1 : the real-number reading -/

section BuilderReal

open Real

@[simp] theorem realOps_pi : realOps.pi = π := rfl

@[simp] theorem realOps_sinf (x : ℝ) : realOps.sinf x = sin x := rfl

@[simp] theorem realOps_cosf (x : ℝ) : realOps.cosf x = cos x := rfl

@[simp] theorem realOps_sqrt (x : ℝ) : realOps.sqrt x = √x := rfl

theorem lens_fov_real : lens_fov realOps = π := by
  simp only [lens_fov, from_degrees, realOps_pi]
  ring

theorem cropped_fov_real : cropped_fov realOps = π := by
  simp only [cropped_fov, from_degrees, realOps_pi]
  ring

theorem scaling_factor_real : scaling_factor realOps = 1 := by
  rw [scaling_factor, lens_fov_real, realOps_pi]
  exact div_self pi_ne_zero

/-- A cropping branch leaves a point whose stored form `(u, 1 - v)` is outside
the texture domain: the point is `(10, 10)` or lies on the circle of radius 10
around the origin. -/
theorem cropBody_outside (u v : ℝ) :
    ¬ inTextureDomain
      ({ x := (cropBody realOps u v).x, y := 1 - (cropBody realOps u v).y } : Vector2 ℝ) := by
  unfold cropBody
  simp only [Vector2.normalise, Vector2.scale, realOps_sqrt]
  set a : ℝ := u * 0.5 + 0.5 with ha
  set b : ℝ := v * 0.5 + 0.5 with hb
  set L : ℝ := √(a * a + b * b) with hL
  have hab : 0 ≤ a * a + b * b := by nlinarith [mul_self_nonneg a, mul_self_nonneg b]
  have hLL : L * L = a * a + b * b := Real.mul_self_sqrt hab
  unfold inTextureDomain
  by_cases hpos : L > 0
  · simp only [hpos, if_true]
    split_ifs with hz
    · simp only
      intro h
      linarith [h.2.1]
    · simp only
      intro h
      obtain ⟨h1, h2, h3, h4⟩ := h
      have hX : (a * (1 / L) * 10) ^ 2 + (b * (1 / L) * 10) ^ 2 = 100 := by
        have hne : L ≠ 0 := ne_of_gt hpos
        field_simp
        nlinarith [hLL]
      nlinarith [hX]
  · simp only [hpos, if_false]
    have hL0 : L = 0 := le_antisymm (not_lt.mp hpos) (Real.sqrt_nonneg _)
    have hsum : a * a + b * b = 0 := by rw [← hLL, hL0]; ring
    have ha0 : a = 0 := by nlinarith [mul_self_nonneg a, mul_self_nonneg b]
    have hb0 : b = 0 := by nlinarith [mul_self_nonneg a, mul_self_nonneg b]
    simp only [ha0, hb0, zero_mul, and_self, if_true]
    intro h
    linarith [h.2.1]

/-- C3: for every vertex of `createSphereMesh`, every debug value and each
camera, over the real numbers: when the azimuth `u_angle` of the vertex lies
strictly outside `[center - cropped_fov/2, center + cropped_fov/2]` (center
`view_center_front` for channel 0, `view_center_rear` for channel 1), the
texture coordinate pair stored for that camera lies outside `[0,1] x [0,1]`. -/
theorem createSphereMesh_cropped_outside (props : Properties ℝ) (r : ℝ)
    (ring_cnt segment_cnt ring seg : Nat) (hring : ring ≤ ring_cnt)
    (hseg : seg ≤ segment_cnt) :
    ∃ v, (createSphereMesh realOps props r ring_cnt segment_cnt).vertex[
        ring * (segment_cnt + 1) + seg]? = some v ∧
      ((u_angle realOps segment_cnt seg <
            view_center_front realOps - cropped_fov realOps / 2 ∨
          view_center_front realOps + cropped_fov realOps / 2 <
            u_angle realOps segment_cnt seg) →
        ¬ inTextureDomain v.uv0) ∧
      ((u_angle realOps segment_cnt seg <
            view_center_rear realOps - cropped_fov realOps / 2 ∨
          view_center_rear realOps + cropped_fov realOps / 2 <
            u_angle realOps segment_cnt seg) →
        ¬ inTextureDomain v.uv1) := by
  refine ⟨_, createSphereMesh_vertex_getElem? realOps props r ring_cnt segment_cnt ring seg
    hring hseg, ?_, ?_⟩
  · intro h
    have hc : cropTest realOps (view_center_front realOps) segment_cnt seg := by
      unfold cropTest
      rcases h with h | h
      · exact Or.inl (le_of_lt h)
      · exact Or.inr (le_of_lt h)
    simp only [sphereVertex, slotUV, hc, if_true]
    exact cropBody_outside _ _
  · intro h
    have hc : cropTest realOps (view_center_rear realOps) segment_cnt seg := by
      unfold cropTest
      rcases h with h | h
      · exact Or.inl (le_of_lt h)
      · exact Or.inr (le_of_lt h)
    simp only [sphereVertex, slotUV, hc, if_true]
    exact cropBody_outside _ _

/-- C3 at ring 3 and segment 1 of a mesh of 8 rings and 16 segments with debug
value 1: the azimuth `pi/8` is strictly below both windows, and both stored
pairs are outside the texture domain. -/
theorem createSphereMesh_cropped_outside_witness :
    (3 : Nat) ≤ 8 ∧ (1 : Nat) ≤ 16 ∧
    u_angle realOps 16 1 < view_center_front realOps - cropped_fov realOps / 2 ∧
    u_angle realOps 16 1 < view_center_rear realOps - cropped_fov realOps / 2 ∧
    ∃ v, (createSphereMesh realOps
        { fov_front_property_ := 235, fov_rear_property_ := 235, debug_property_ := 1 }
        10 8 16).vertex[3 * (16 + 1) + 1]? = some v ∧
      ¬ inTextureDomain v.uv0 ∧ ¬ inTextureDomain v.uv1 := by
  have hf : u_angle realOps 16 1 < view_center_front realOps - cropped_fov realOps / 2 := by
    rw [cropped_fov_real]
    simp only [u_angle, delta_segment_angle, view_center_front, realOps_pi]
    norm_num
    linarith [pi_pos]
  have hr : u_angle realOps 16 1 < view_center_rear realOps - cropped_fov realOps / 2 := by
    rw [cropped_fov_real]
    simp only [u_angle, delta_segment_angle, view_center_rear, realOps_pi]
    norm_num
    linarith [pi_pos]
  obtain ⟨v, hv, h0, h1⟩ := createSphereMesh_cropped_outside
    { fov_front_property_ := 235, fov_rear_property_ := 235, debug_property_ := 1 }
    10 8 16 3 1 (by decide) (by decide)
  exact ⟨by decide, by decide, hf, hr, v, hv, h0 (Or.inl hf), h1 (Or.inl hr)⟩

/-- C4 (as stated, refuted): vertex 0 of the mesh `createSphere` builds, with
the properties as constructed, has azimuth 0, which passes the test of the
front cropping branch, and its stored front pair is outside `[0,1] x [0,1]`. -/
theorem createSphere_pole_front_cropped :
    ∃ v, (createSphere realOps Properties.initial).vertex[0 * (64 + 1) + 0]? = some v ∧
      ¬ (¬ cropTest realOps (view_center_front realOps) 64 0 ∧
          ¬ cropTest realOps (view_center_rear realOps) 64 0 ∧
          inTextureDomain v.uv0 ∧ inTextureDomain v.uv1) := by
  refine ⟨_, createSphereMesh_vertex_getElem? realOps Properties.initial 10 64 64 0 0
    (by decide) (by decide), ?_⟩
  intro h
  apply h.1
  unfold cropTest
  left
  rw [cropped_fov_real]
  simp only [u_angle, view_center_front, realOps_pi, Nat.cast_zero, zero_mul]
  linarith [pi_pos]

/-- C4 (amended): for every setting of the properties, vertex 0 of the mesh
`createSphere` builds (radius 10, 64 rings, 64 segments) is the pole at
position `(0, 10, 0)`; its azimuth 0 passes the test of the front cropping
branch, and its stored front pair lies outside `[0,1] x [0,1]`. -/
theorem createSphere_pole (props : Properties ℝ) :
    ∃ v, (createSphere realOps props).vertex[0 * (64 + 1) + 0]? = some v ∧
      v.position = { x := 0, y := 10, z := 0 } ∧
      cropTest realOps (view_center_front realOps) 64 0 ∧
      ¬ inTextureDomain v.uv0 := by
  have hf : cropTest realOps (view_center_front realOps) 64 0 := by
    unfold cropTest
    left
    rw [cropped_fov_real]
    simp only [u_angle, view_center_front, realOps_pi, Nat.cast_zero, zero_mul]
    linarith [pi_pos]
  refine ⟨_, createSphereMesh_vertex_getElem? realOps props 10 64 64 0 0
    (by decide) (by decide), ?_, hf, ?_⟩
  · simp [sphereVertex]
  · simp only [sphereVertex, slotUV, hf, if_true]
    exact cropBody_outside _ _

/-- C5: for every radius `r > 0`, `ring_cnt, segment_cnt >= 1` and every vertex
`(ring, seg)` of `createSphereMesh`, over the real numbers: the position is
`(r sin(theta) sin(phi), r cos(theta), r sin(theta) cos(phi))` with
`theta = v_angle` and `phi = u_angle`, its Euclidean norm is `r`, and the
stored normal is the position divided by `-r`. -/
theorem createSphereMesh_position_normal (props : Properties ℝ) (r : ℝ)
    (ring_cnt segment_cnt ring seg : Nat) (hr : 0 < r)
    (hring_cnt : 1 ≤ ring_cnt) (hsegment_cnt : 1 ≤ segment_cnt)
    (hring : ring ≤ ring_cnt) (hseg : seg ≤ segment_cnt) :
    ∃ v, (createSphereMesh realOps props r ring_cnt segment_cnt).vertex[
        ring * (segment_cnt + 1) + seg]? = some v ∧
      v.position =
        { x := r * sin (v_angle realOps ring_cnt ring) * sin (u_angle realOps segment_cnt seg)
          y := r * cos (v_angle realOps ring_cnt ring)
          z := r * sin (v_angle realOps ring_cnt ring) *
            cos (u_angle realOps segment_cnt seg) } ∧
      √(v.position.x * v.position.x + v.position.y * v.position.y +
          v.position.z * v.position.z) = r ∧
      v.normal =
        { x := -(v.position.x / r), y := -(v.position.y / r), z := -(v.position.z / r) } := by
  refine ⟨_, createSphereMesh_vertex_getElem? realOps props r ring_cnt segment_cnt ring seg
    hring hseg, ?_⟩
  set θ : ℝ := v_angle realOps ring_cnt ring with hθ
  set φ : ℝ := u_angle realOps segment_cnt seg with hφ
  have hsq : r * sin θ * sin φ * (r * sin θ * sin φ) + r * cos θ * (r * cos θ) +
      r * sin θ * cos φ * (r * sin θ * cos φ) = r * r := by
    have h1 := sin_sq_add_cos_sq θ
    have h2 := sin_sq_add_cos_sq φ
    have : r * sin θ * sin φ * (r * sin θ * sin φ) + r * cos θ * (r * cos θ) +
        r * sin θ * cos φ * (r * sin θ * cos φ) =
        r * r * (sin θ ^ 2 * (sin φ ^ 2 + cos φ ^ 2) + cos θ ^ 2) := by ring
    rw [this, h2, mul_one, h1, mul_one]
  have hlen : √(r * sin θ * sin φ * (r * sin θ * sin φ) + r * cos θ * (r * cos θ) +
      r * sin θ * cos φ * (r * sin θ * cos φ)) = r := by
    rw [hsq]
    exact Real.sqrt_mul_self (le_of_lt hr)
  have hpos : sphereVertex realOps props r ring_cnt segment_cnt ring seg =
      { position := { x := r * sin θ * sin φ, y := r * cos θ, z := r * sin θ * cos φ }
        normal := (Vector3.normalisedCopy realOps
          { x := r * sin θ * sin φ, y := r * cos θ, z := r * sin θ * cos φ }).neg
        uv0 := (sphereVertex realOps props r ring_cnt segment_cnt ring seg).uv0
        uv1 := (sphereVertex realOps props r ring_cnt segment_cnt ring seg).uv1 } := by
    simp only [sphereVertex, realOps_sinf, realOps_cosf, hθ, hφ, v_angle, u_angle]
  rw [hpos]
  refine ⟨rfl, hlen, ?_⟩
  simp only [Vector3.normalisedCopy, Vector3.neg, realOps_sqrt, hlen, hr, if_true,
    gt_iff_lt, mul_one_div]

/-- C5 at the vertex of ring 16 and segment 32 of the mesh of radius 10 with 64
rings and 64 segments. -/
theorem createSphereMesh_position_normal_witness :
    (0 : ℝ) < 10 ∧ 1 ≤ 64 ∧ (16 : Nat) ≤ 64 ∧ (32 : Nat) ≤ 64 ∧
    ∃ v, (createSphereMesh realOps Properties.initial 10 64 64).vertex[
        16 * (64 + 1) + 32]? = some v ∧
      √(v.position.x * v.position.x + v.position.y * v.position.y +
          v.position.z * v.position.z) = 10 ∧
      v.normal =
        { x := -(v.position.x / 10), y := -(v.position.y / 10),
          z := -(v.position.z / 10) } := by
  obtain ⟨v, hv, _, hn, hm⟩ := createSphereMesh_position_normal Properties.initial 10
    64 64 16 32 (by norm_num) (by decide) (by decide) (by decide) (by decide)
  exact ⟨by norm_num, by decide, by decide, by decide, v, hv, hn, hm⟩

/-- With debug value 0 the texture coordinates of a vertex that is not
cropped are `(0.5, 0.5)`, whatever its angles. -/
theorem slotUV_debug_zero (props : Properties ℝ) (view_center : ℝ)
    (ring_cnt segment_cnt ring seg : Nat) (hdebug : props.debug_property_ = 0)
    (hcrop : ¬ cropTest realOps view_center segment_cnt seg) :
    slotUV realOps props view_center ring_cnt segment_cnt ring seg =
      { x := 1 / 2, y := 1 / 2 } := by
  simp only [slotUV, hcrop, if_false, hdebug, mul_zero, zero_add]
  norm_num

/-- C10 (the code at the failing input): in the mesh `createSphere` builds with
the properties as constructed (debug value 0), the vertices of rings 16 and 32
at segment 32 are not cropped in channel 0 and have different raw `v`
coordinates `cos(v_arg)`, yet both are stored with the pair `(0.5, 0.5)`, which
is not `0.5 * cos(v_arg) + 0.5` at ring 16. -/
theorem createSphere_debug_default_collapses :
    ¬ cropTest realOps (view_center_front realOps) 64 32 ∧
    realOps.cosf (v_arg realOps 64 16) ≠ realOps.cosf (v_arg realOps 64 32) ∧
    (1 / 2 : ℝ) ≠ 0.5 * realOps.cosf (v_arg realOps 64 16) + 0.5 ∧
    ∃ v w, (createSphere realOps Properties.initial).vertex[16 * (64 + 1) + 32]? = some v ∧
      (createSphere realOps Properties.initial).vertex[32 * (64 + 1) + 32]? = some w ∧
      v.uv0 = { x := 1 / 2, y := 1 / 2 } ∧ w.uv0 = { x := 1 / 2, y := 1 / 2 } := by
  have hcrop : ¬ cropTest realOps (view_center_front realOps) 64 32 := by
    unfold cropTest
    rw [cropped_fov_real]
    simp only [u_angle, delta_segment_angle, view_center_front, realOps_pi]
    push_neg
    constructor <;> norm_num <;> linarith [pi_pos]
  have h16 : v_arg realOps 64 16 = π / 4 := by
    rw [v_arg, lens_fov_real, scaling_factor_real]
    simp only [v_angle, delta_ring_angle, realOps_pi]
    norm_num
    ring
  have h32 : v_arg realOps 64 32 = π / 2 := by
    rw [v_arg, lens_fov_real, scaling_factor_real]
    simp only [v_angle, delta_ring_angle, realOps_pi]
    norm_num
    ring
  have hcos : (0 : ℝ) < cos (π / 4) := by
    rw [cos_pi_div_four]
    positivity
  refine ⟨hcrop, ?_, ?_, _, _,
    createSphereMesh_vertex_getElem? realOps Properties.initial 10 64 64 16 32
      (by decide) (by decide),
    createSphereMesh_vertex_getElem? realOps Properties.initial 10 64 64 32 32
      (by decide) (by decide), ?_, ?_⟩
  · rw [realOps_cosf, realOps_cosf, h16, h32, cos_pi_div_two]
    exact ne_of_gt hcos
  · rw [realOps_cosf, h16]
    intro h
    norm_num at h
  · have h := slotUV_debug_zero Properties.initial (view_center_front realOps) 64 64 16 32
      rfl hcrop
    simp only [sphereVertex, h]
    norm_num
  · have h := slotUV_debug_zero Properties.initial (view_center_front realOps) 64 64 32 32
      rfl hcrop
    simp only [sphereVertex, h]
    norm_num

end BuilderReal

/-! ## Part 1 : counts of zero -/

section BuilderZero

variable {α : Type} [LinearOrderedField α]

/-- C9 (as stated, refuted): called with `ring_cnt = 0` (and 3 segments)
`createSphereMesh` returns a mesh into which the loops have written 4
vertices; called with `segment_cnt = 0` (and 3 rings) it returns a mesh with 4
vertices and 18 indices. -/
theorem createSphereMesh_zero_builds :
    (createSphereMesh realOps Properties.initial 10 0 3).vertex.length = 4 ∧
    (createSphereMesh realOps Properties.initial 10 3 0).vertex.length = 4 ∧
    (createSphereMesh realOps Properties.initial 10 3 0).indices.length = 18 ∧
    ¬ ((createSphereMesh realOps Properties.initial 10 0 3).vertex = [] ∧
        (createSphereMesh realOps Properties.initial 10 0 3).indices = []) := by
  refine ⟨?_, ?_, ?_, ?_⟩
  · rw [createSphereMesh_vertex_length]
  · rw [createSphereMesh_vertex_length]
  · rw [createSphereMesh_indices_length]
  · intro h
    have h4 := createSphereMesh_vertex_length realOps Properties.initial 10 0 3
    rw [h.1] at h4
    simp at h4

/-- C9 (amended): `createSphereMesh` has no check of its counts.  For every
`n` with `6 * n < 2^32` (so that the loop counters and both buffer sizes stay
in range): called with `ring_cnt = 0` and `segment_cnt = n` it allocates and
writes the `n + 1` vertices of ring 0 and no index; called with `ring_cnt = n`
and `segment_cnt = 0` it allocates and writes `n + 1` vertices and `6 * n`
indices. -/
theorem createSphereMesh_zero_counts (ops : MathOps α) (props : Properties α) (r : α)
    (n : Nat) (hfit : 6 * n < 4294967296) :
    ((createSphereMesh ops props r 0 n).vertex.length = n + 1 ∧
      (createSphereMesh ops props r 0 n).vertexCount = n + 1 ∧
      (createSphereMesh ops props r 0 n).indices = [] ∧
      (createSphereMesh ops props r 0 n).indexCount = 0) ∧
    ((createSphereMesh ops props r n 0).vertex.length = n + 1 ∧
      (createSphereMesh ops props r n 0).vertexCount = n + 1 ∧
      (createSphereMesh ops props r n 0).indices.length = 6 * n ∧
      (createSphereMesh ops props r n 0).indexCount = 6 * n) := by
  have h1 : n + 1 < 4294967296 := by omega
  refine ⟨⟨?_, ?_, ?_, ?_⟩, ?_, ?_, ?_, ?_⟩
  · rw [createSphereMesh_vertex_length]
    ring
  · rw [createSphereMesh_vertexCount]
    unfold u32
    rw [Nat.mod_eq_of_lt h1]
    simp only [Nat.zero_add, Nat.one_mod, Nat.one_mul]
    exact Nat.mod_eq_of_lt h1
  · apply List.eq_nil_of_length_eq_zero
    rw [createSphereMesh_indices_length]
    ring
  · rw [createSphereMesh_indexCount]
    simp [u32]
  · rw [createSphereMesh_vertex_length]
    ring
  · rw [createSphereMesh_vertexCount]
    unfold u32
    rw [Nat.mod_eq_of_lt h1]
    simp only [Nat.zero_add, Nat.one_mod, Nat.mul_one]
    exact Nat.mod_eq_of_lt h1
  · rw [createSphereMesh_indices_length]
    ring
  · rw [createSphereMesh_indexCount]
    unfold u32
    rw [Nat.mod_eq_of_lt hfit]
    simp only [Nat.zero_add, Nat.one_mod, Nat.mul_one]
    exact Nat.mod_eq_of_lt hfit

/-- C9 at `n = 3`: with no ring and 3 segments 4 vertices and no index, with 3
rings and no segment 4 vertices and 18 indices. -/
theorem createSphereMesh_zero_counts_witness :
    6 * 3 < 4294967296 ∧
    (createSphereMesh realOps Properties.initial 10 0 3).vertex.length = 3 + 1 ∧
    (createSphereMesh realOps Properties.initial 10 0 3).indices = [] ∧
    (createSphereMesh realOps Properties.initial 10 3 0).vertex.length = 3 + 1 ∧
    (createSphereMesh realOps Properties.initial 10 3 0).indices.length = 6 * 3 :=
  have h := createSphereMesh_zero_counts realOps Properties.initial 10 3 (by decide)
  ⟨by decide, h.1.1, h.1.2.2.1, h.2.1, h.2.2.2.1⟩

end BuilderZero

/-! ## Part 1 : the index buffer -/

section BuilderIndices

variable {α : Type} [LinearOrderedField α]

theorem u16_succ (c : Nat) : u16 (u16 c + 1) = u16 (c + 1) := by
  unfold u16
  omega

theorem segmentBody_indices (ops : MathOps α) (props : Properties α) (r : α)
    (ring_cnt segment_cnt ring : Nat) (st : LoopState α) (seg : Nat)
    (hring : ring ≠ ring_cnt) :
    (segmentBody ops props r ring_cnt segment_cnt ring st seg).indices =
        st.indices ++ faceIndices segment_cnt st.vertex_index ∧
    (segmentBody ops props r ring_cnt segment_cnt ring st seg).vertex_index =
        u16 (st.vertex_index + 1) := by
  unfold segmentBody faceIndices
  rw [if_pos hring]
  exact ⟨rfl, rfl⟩

theorem segmentBody_last (ops : MathOps α) (props : Properties α) (r : α)
    (ring_cnt segment_cnt : Nat) (st : LoopState α) (seg : Nat) :
    (segmentBody ops props r ring_cnt segment_cnt ring_cnt st seg).indices = st.indices ∧
    (segmentBody ops props r ring_cnt segment_cnt ring_cnt st seg).vertex_index =
        st.vertex_index := by
  unfold segmentBody
  simp

/-- The inner loop of a ring other than the last, started with
`vertex_index = c mod 2^16`: it appends the faces of the counter values
`c, c + 1, ...` and advances the counter by the number of passes. -/
theorem foldl_segmentBody_indices (ops : MathOps α) (props : Properties α) (r : α)
    (ring_cnt segment_cnt ring : Nat) (hring : ring ≠ ring_cnt) (m c : Nat)
    (st : LoopState α) (hst : st.vertex_index = u16 c) :
    ((List.range m).foldl (segmentBody ops props r ring_cnt segment_cnt ring) st).indices =
        st.indices ++
          (List.range m).flatMap (fun k => faceIndices segment_cnt (u16 (c + k))) ∧
    ((List.range m).foldl
        (segmentBody ops props r ring_cnt segment_cnt ring) st).vertex_index =
      u16 (c + m) := by
  induction m with
  | zero => simp [hst]
  | succ m ih =>
    obtain ⟨hi, hv⟩ := ih
    rw [List.range_succ, List.foldl_append, List.foldl_cons, List.foldl_nil]
    obtain ⟨h1, h2⟩ := segmentBody_indices ops props r ring_cnt segment_cnt ring
      ((List.range m).foldl (segmentBody ops props r ring_cnt segment_cnt ring) st) m hring
    rw [h1, h2, hi, hv, List.flatMap_append, List.flatMap_singleton, List.append_assoc,
      u16_succ]
    exact ⟨rfl, rfl⟩

theorem foldl_segmentBody_last (ops : MathOps α) (props : Properties α) (r : α)
    (ring_cnt segment_cnt : Nat) (l : List Nat) (st : LoopState α) :
    (l.foldl (segmentBody ops props r ring_cnt segment_cnt ring_cnt) st).indices =
        st.indices ∧
    (l.foldl (segmentBody ops props r ring_cnt segment_cnt ring_cnt) st).vertex_index =
        st.vertex_index := by
  induction l generalizing st with
  | nil => exact ⟨rfl, rfl⟩
  | cons seg l ih =>
    obtain ⟨h1, h2⟩ := segmentBody_last ops props r ring_cnt segment_cnt st seg
    obtain ⟨h3, h4⟩ := ih (segmentBody ops props r ring_cnt segment_cnt ring_cnt st seg)
    rw [List.foldl_cons, h3, h4, h1, h2]
    exact ⟨rfl, rfl⟩

theorem ringBody_eq (ops : MathOps α) (props : Properties α) (r : α)
    (ring_cnt segment_cnt : Nat) (st : LoopState α) (ring : Nat) :
    ringBody ops props r ring_cnt segment_cnt st ring =
      (List.range (segment_cnt + 1)).foldl
        (segmentBody ops props r ring_cnt segment_cnt ring) st := rfl

omit [LinearOrderedField α] in
theorem flatMap_range_add {β : Type} (g : Nat → List β) (a b : Nat) :
    (List.range (a + b)).flatMap g =
      (List.range a).flatMap g ++ (List.range b).flatMap (fun k => g (a + k)) := by
  rw [List.range_add, List.flatMap_append, List.flatMap_map]

/-- The first `n` rings, none of them the last: the faces of the counter
values `0, 1, ..., n * (segment_cnt + 1) - 1`. -/
theorem foldl_ringBody_indices (ops : MathOps α) (props : Properties α) (r : α)
    (ring_cnt segment_cnt n : Nat) (hn : n ≤ ring_cnt) :
    ((List.range n).foldl (ringBody ops props r ring_cnt segment_cnt)
        { vertex := [], indices := [], vertex_index := 0 }).indices =
      (List.range (n * (segment_cnt + 1))).flatMap
        (fun j => faceIndices segment_cnt (u16 j)) ∧
    ((List.range n).foldl (ringBody ops props r ring_cnt segment_cnt)
        { vertex := [], indices := [], vertex_index := 0 }).vertex_index =
      u16 (n * (segment_cnt + 1)) := by
  induction n with
  | zero => simp [u16]
  | succ n ih =>
    obtain ⟨hi, hv⟩ := ih (by omega)
    have hne : n ≠ ring_cnt := by omega
    rw [List.range_succ, List.foldl_append, List.foldl_cons, List.foldl_nil]
    obtain ⟨h1, h2⟩ := foldl_segmentBody_indices ops props r ring_cnt segment_cnt n hne
      (segment_cnt + 1) (n * (segment_cnt + 1)) _ hv
    have hmul : (n + 1) * (segment_cnt + 1) = n * (segment_cnt + 1) + (segment_cnt + 1) := by
      ring
    rw [ringBody_eq, h1, h2, hi, hmul,
      flatMap_range_add (fun j => faceIndices segment_cnt (u16 j)) (n * (segment_cnt + 1))
        (segment_cnt + 1)]
    exact ⟨rfl, rfl⟩

/-- The index buffer `createSphereMesh` writes: for each value `j` of the
counter below `ring_cnt * (segment_cnt + 1)`, in order, the six indices of the
face of `j`. -/
theorem createSphereMesh_indices (ops : MathOps α) (props : Properties α) (r : α)
    (ring_cnt segment_cnt : Nat) :
    (createSphereMesh ops props r ring_cnt segment_cnt).indices =
      (List.range (ring_cnt * (segment_cnt + 1))).flatMap
        (fun j => faceIndices segment_cnt (u16 j)) := by
  unfold createSphereMesh
  simp only
  rw [List.range_succ, List.foldl_append, List.foldl_cons, List.foldl_nil, ringBody_eq,
    (foldl_segmentBody_last ops props r ring_cnt segment_cnt _ _).1]
  exact (foldl_ringBody_indices ops props r ring_cnt segment_cnt ring_cnt (le_refl _)).1

/-- Below the 16-bit limit no sum wraps: the face of the counter value `j`. -/
theorem faceIndices_of_fit (ring_cnt segment_cnt j : Nat)
    (hfit : (ring_cnt + 1) * (segment_cnt + 1) ≤ 65536)
    (hj : j < ring_cnt * (segment_cnt + 1)) :
    faceIndices segment_cnt (u16 j) =
      [j + segment_cnt + 1, j + segment_cnt, j, j + 1, j + segment_cnt + 1, j] := by
  have hcount : (ring_cnt + 1) * (segment_cnt + 1) =
      ring_cnt * (segment_cnt + 1) + (segment_cnt + 1) := by ring
  have h1 : j + segment_cnt + 1 < 65536 := by omega
  have hu : u16 j = j := Nat.mod_eq_of_lt (by omega)
  unfold faceIndices
  rw [hu]
  unfold u16 u32
  rw [Nat.mod_eq_of_lt (show j + segment_cnt + 1 < 4294967296 by omega),
    Nat.mod_eq_of_lt (show j + segment_cnt < 4294967296 by omega),
    Nat.mod_eq_of_lt h1, Nat.mod_eq_of_lt (show j + segment_cnt < 65536 by omega),
    Nat.mod_eq_of_lt (show j + 1 < 65536 by omega)]

theorem length_flatMap_faceIndices (segment_cnt n : Nat) :
    ((List.range n).flatMap (fun j => faceIndices segment_cnt (u16 j))).length = n * 6 := by
  induction n with
  | zero => simp
  | succ n ih =>
    rw [List.range_succ, List.flatMap_append, List.length_append, ih]
    simp [faceIndices]
    ring

/-- Reading entry `t` of the face of the counter value `j` from the buffer. -/
theorem getElem?_flatMap_faceIndices (segment_cnt n j t : Nat) (hj : j < n) (ht : t < 6) :
    ((List.range n).flatMap (fun j => faceIndices segment_cnt (u16 j)))[j * 6 + t]? =
      (faceIndices segment_cnt (u16 j))[t]? := by
  induction n with
  | zero => omega
  | succ n ih =>
    rw [List.range_succ, List.flatMap_append, List.getElem?_append,
      length_flatMap_faceIndices]
    by_cases h : j < n
    · rw [if_pos (by omega)]
      exact ih h
    · have hjn : j = n := by omega
      subst hjn
      rw [if_neg (by omega), Nat.add_sub_cancel_left]
      simp only [List.flatMap_singleton]

/-- Below the 16-bit limit the index buffer holds, for each value `j` of the
counter in order, the six indices
`j + segment_cnt + 1, j + segment_cnt, j, j + 1, j + segment_cnt + 1, j`. -/
theorem createSphereMesh_indices_of_fit (ops : MathOps α) (props : Properties α) (r : α)
    (ring_cnt segment_cnt : Nat) (hfit : (ring_cnt + 1) * (segment_cnt + 1) ≤ 65536) :
    (createSphereMesh ops props r ring_cnt segment_cnt).indices =
      (List.range (ring_cnt * (segment_cnt + 1))).flatMap
        (fun j => [j + segment_cnt + 1, j + segment_cnt, j, j + 1, j + segment_cnt + 1, j]) := by
  rw [createSphereMesh_indices]
  apply List.flatMap_congr
  intro j hj
  exact faceIndices_of_fit ring_cnt segment_cnt j hfit (List.mem_range.mp hj)

/-- C11: for every `ring_cnt >= 1` and `segment_cnt >= 1` with
`(ring_cnt + 1) * (segment_cnt + 1) <= 65536`: the index buffer written by
`createSphereMesh` holds, for each value `j` of the counter `vertex_index`, the
indices `j + segment_cnt + 1, j + segment_cnt, j, j + 1, j + segment_cnt + 1, j`;
every index in it is below the vertex count `(ring_cnt + 1) * (segment_cnt + 1)`,
which is the number of vertices written; and the three indices of each of the
`2 * ring_cnt * (segment_cnt + 1)` triangles are pairwise distinct. -/
theorem createSphereMesh_indices_valid (ops : MathOps α) (props : Properties α) (r : α)
    (ring_cnt segment_cnt : Nat) (hring : 1 ≤ ring_cnt) (hseg : 1 ≤ segment_cnt)
    (hfit : (ring_cnt + 1) * (segment_cnt + 1) ≤ 65536) :
    (createSphereMesh ops props r ring_cnt segment_cnt).indices =
      (List.range (ring_cnt * (segment_cnt + 1))).flatMap
        (fun j => [j + segment_cnt + 1, j + segment_cnt, j, j + 1, j + segment_cnt + 1, j]) ∧
    (∀ i ∈ (createSphereMesh ops props r ring_cnt segment_cnt).indices,
      i < (ring_cnt + 1) * (segment_cnt + 1) ∧
        i < (createSphereMesh ops props r ring_cnt segment_cnt).vertex.length) ∧
    (∀ k, k < 2 * ring_cnt * (segment_cnt + 1) →
      ∃ a b c,
        (createSphereMesh ops props r ring_cnt segment_cnt).indices[3 * k]? = some a ∧
        (createSphereMesh ops props r ring_cnt segment_cnt).indices[3 * k + 1]? = some b ∧
        (createSphereMesh ops props r ring_cnt segment_cnt).indices[3 * k + 2]? = some c ∧
        a ≠ b ∧ b ≠ c ∧ a ≠ c) := by
  have hcount : (ring_cnt + 1) * (segment_cnt + 1) =
      ring_cnt * (segment_cnt + 1) + (segment_cnt + 1) := by ring
  refine ⟨createSphereMesh_indices_of_fit ops props r ring_cnt segment_cnt hfit, ?_, ?_⟩
  · intro i hi
    rw [createSphereMesh_vertex_length, and_self]
    rw [createSphereMesh_indices_of_fit ops props r ring_cnt segment_cnt hfit,
      List.mem_flatMap] at hi
    obtain ⟨j, hj, hmem⟩ := hi
    have hj1 := List.mem_range.mp hj
    simp only [List.mem_cons, List.mem_singleton, List.not_mem_nil, or_false] at hmem
    omega
  · intro k hk
    have hmul : 2 * ring_cnt * (segment_cnt + 1) = 2 * (ring_cnt * (segment_cnt + 1)) := by
      ring
    rw [createSphereMesh_indices]
    obtain ⟨q, hq | hq⟩ := Nat.even_or_odd' k
    · have hq1 : q < ring_cnt * (segment_cnt + 1) := by omega
      have e0 : 3 * k = q * 6 + 0 := by omega
      have e1 : 3 * k + 1 = q * 6 + 1 := by omega
      have e2 : 3 * k + 2 = q * 6 + 2 := by omega
      rw [e2, e1, e0,
        getElem?_flatMap_faceIndices segment_cnt _ q 0 hq1 (by decide),
        getElem?_flatMap_faceIndices segment_cnt _ q 1 hq1 (by decide),
        getElem?_flatMap_faceIndices segment_cnt _ q 2 hq1 (by decide),
        faceIndices_of_fit ring_cnt segment_cnt q hfit hq1]
      exact ⟨q + segment_cnt + 1, q + segment_cnt, q, rfl, rfl, rfl,
        by omega, by omega, by omega⟩
    · have hq1 : q < ring_cnt * (segment_cnt + 1) := by omega
      have e0 : 3 * k = q * 6 + 3 := by omega
      have e1 : 3 * k + 1 = q * 6 + 4 := by omega
      have e2 : 3 * k + 2 = q * 6 + 5 := by omega
      rw [e2, e1, e0,
        getElem?_flatMap_faceIndices segment_cnt _ q 3 hq1 (by decide),
        getElem?_flatMap_faceIndices segment_cnt _ q 4 hq1 (by decide),
        getElem?_flatMap_faceIndices segment_cnt _ q 5 hq1 (by decide),
        faceIndices_of_fit ring_cnt segment_cnt q hfit hq1]
      exact ⟨q + 1, q + segment_cnt + 1, q, rfl, rfl, rfl,
        by omega, by omega, by omega⟩

/-- C11 at the mesh `createSphere` builds (64 rings, 64 segments, 4225
vertices): its first triangle is `(65, 64, 0)`, and every index is below 4225. -/
theorem createSphereMesh_indices_valid_witness :
    1 ≤ 64 ∧ (64 + 1) * (64 + 1) ≤ 65536 ∧
    (∀ i ∈ (createSphereMesh realOps Properties.initial 10 64 64).indices,
      i < (64 + 1) * (64 + 1)) ∧
    ∃ a b c,
      (createSphereMesh realOps Properties.initial 10 64 64).indices[3 * 0]? = some a ∧
      (createSphereMesh realOps Properties.initial 10 64 64).indices[3 * 0 + 1]? = some b ∧
      (createSphereMesh realOps Properties.initial 10 64 64).indices[3 * 0 + 2]? = some c ∧
      a ≠ b ∧ b ≠ c ∧ a ≠ c := by
  obtain ⟨_, h2, h3⟩ := createSphereMesh_indices_valid realOps Properties.initial 10 64 64
    (by decide) (by decide) (by decide)
  exact ⟨by decide, by decide, fun i hi => (h2 i hi).1, h3 0 (by decide)⟩

end BuilderIndices

/-! ## Part 2 : the image pipeline -/

section Pipeline

open Event

theorem settled_initial (material : Option Material) :
    Settled (SphereDisplay.initial material) := by
  simp [Settled, SphereDisplay.initial]

theorem ROSImageTexture.update_new_image (lib : Library) (t : ROSImageTexture)
    (h : t.new_image_ = false ∨ t.current_image_ ≠ none) :
    (t.update lib).new_image_ = false := by
  unfold ROSImageTexture.update
  split
  · split_ifs <;> rfl
  · rename_i hne
    rcases h with h | h
    · exact h
    · cases hc : t.current_image_ with
      | none => exact absurd hc h
      | some image =>
        cases hn : t.new_image_ with
        | false => rfl
        | true => exact absurd hn (by simpa [hc] using hne image)

theorem ROSImageTexture.update_idle (lib : Library) (t : ROSImageTexture)
    (h : t.new_image_ = false) : t.update lib = t := by
  unfold ROSImageTexture.update
  split
  · rename_i hn
    rw [h] at hn
    exact absurd hn (by decide)
  · rfl

theorem ROSImageTexture.update_addMessage (lib : Library) (t : ROSImageTexture)
    (rgba : Image) :
    ((t.addMessage rgba).update lib).current_image_ = some rgba ∧
    ((t.addMessage rgba).update lib).addr = t.addr ∧
    (rgba.data ≠ [] → lib.knownEncoding rgba.encoding = true →
      ((t.addMessage rgba).update lib).texture_ = some rgba) := by
  simp only [ROSImageTexture.update, ROSImageTexture.addMessage]
  refine ⟨?_, ?_, ?_⟩
  · split_ifs <;> rfl
  · split_ifs <;> rfl
  · intro hd hk
    have : rgba.data.isEmpty = false := by
      cases hdat : rgba.data with
      | nil => exact absurd hdat hd
      | cons a l => rfl
    simp [this, hk]

/-- A frame that cannot be converted leaves the display as it is. -/
theorem imageToTexture_decode_failure (lib : Library) (s : SphereDisplay) (slot : Slot)
    (m : Image) (h : lib.toCvCopy m = none) :
    imageToTexture lib s slot (some m) = some s := by
  simp [imageToTexture, h]

/-- A converted frame is handed to the texture when there is one. -/
theorem imageToTexture_existing (lib : Library) (s : SphereDisplay) (slot : Slot)
    (m rgba : Image) (t : ROSImageTexture) (h : lib.toCvCopy m = some rgba)
    (ht : s.texture slot = some t) :
    imageToTexture lib s slot (some m) =
      some (s.setTexture slot (some (t.addMessage rgba))) := by
  simp [imageToTexture, h, ht]

/-- Without a texture, a converted frame makes `imageToTexture` create the
texture; the frame itself is not handed to it. -/
theorem imageToTexture_create (lib : Library) (s : SphereDisplay) (slot : Slot)
    (m rgba : Image) (h : lib.toCvCopy m = some rgba) (ht : s.texture slot = none) :
    ∃ material, imageToTexture lib s slot (some m) =
      some { s.setTexture slot (some (ROSImageTexture.new s.next_addr)) with
        next_addr := s.next_addr + 1, sphere_material_ := material } := by
  simp only [imageToTexture, h, ht]
  split
  · exact ⟨_, rfl⟩
  · split
    · exact ⟨_, rfl⟩
    · split_ifs <;> exact ⟨_, rfl⟩

/-- What `imageToTexture` followed by `updateTexture` does for one camera,
when the texture of that camera has no message waiting: the images and flags
stay, the texture of the other camera stays, and the texture of this camera
has no message waiting afterwards. -/
theorem slot_block (lib : Library) (s : SphereDisplay) (slot : Slot) (m : Image)
    (hs : ∀ t, s.texture slot = some t → t.new_image_ = false) :
    ∃ s1, imageToTexture lib s slot (some m) = some s1 ∧
      (updateTexture lib s1 slot).cur_image_front_ = s.cur_image_front_ ∧
      (updateTexture lib s1 slot).cur_image_rear_ = s.cur_image_rear_ ∧
      (updateTexture lib s1 slot).new_front_image_arrived_ = s.new_front_image_arrived_ ∧
      (updateTexture lib s1 slot).new_rear_image_arrived_ = s.new_rear_image_arrived_ ∧
      (∀ other, other ≠ slot → (updateTexture lib s1 slot).texture other = s.texture other) ∧
      (∀ t, (updateTexture lib s1 slot).texture slot = some t → t.new_image_ = false) := by
  cases hd : lib.toCvCopy m with
  | none =>
    refine ⟨s, imageToTexture_decode_failure lib s slot m hd, ?_⟩
    cases ht : s.texture slot with
    | none =>
      have hu : updateTexture lib s slot = s := by simp [updateTexture, ht]
      rw [hu]
      exact ⟨rfl, rfl, rfl, rfl, fun _ _ => rfl, hs⟩
    | some t =>
      have hu : updateTexture lib s slot = s.setTexture slot (some t) := by
        simp [updateTexture, ht, ROSImageTexture.update_idle lib t (hs t ht)]
      rw [hu]
      cases slot <;>
        simp_all [SphereDisplay.setTexture, SphereDisplay.texture]
  | some rgba =>
    cases ht : s.texture slot with
    | none =>
      obtain ⟨material, hm⟩ := imageToTexture_create lib s slot m rgba hd ht
      refine ⟨_, hm, ?_⟩
      cases slot <;>
        simp [updateTexture, SphereDisplay.setTexture, SphereDisplay.texture,
          ROSImageTexture.update, ROSImageTexture.new] <;>
        intro other ho <;> cases other <;> simp_all
    | some t =>
      refine ⟨_, imageToTexture_existing lib s slot m rgba t hd ht, ?_⟩
      have hn := ROSImageTexture.update_new_image lib (t.addMessage rgba)
        (Or.inr (by simp [ROSImageTexture.addMessage]))
      cases slot <;>
        simp [updateTexture, SphereDisplay.setTexture, SphereDisplay.texture, hn] <;>
        intro other ho <;> cases other <;> simp_all

/-- The front block of `update` on a settled display: it returns, the display
is settled again, and nothing of the rear camera has changed. -/
theorem updateFront_settled (lib : Library) (s : SphereDisplay) (hs : Settled s) :
    ∃ s1, updateFront lib s = some s1 ∧ Settled s1 ∧
      s1.texture_rear_ = s.texture_rear_ ∧ s1.cur_image_rear_ = s.cur_image_rear_ ∧
      s1.new_rear_image_arrived_ = s.new_rear_image_arrived_ := by
  obtain ⟨h1, h2, h3, h4⟩ := hs
  unfold updateFront
  cases hflag : s.new_front_image_arrived_ with
  | false => exact ⟨s, by simp, ⟨by simp [hflag], h2, h3, h4⟩, rfl, rfl, rfl⟩
  | true =>
    cases hcur : s.cur_image_front_ with
    | none => exact absurd hcur (h1 hflag)
    | some m =>
      obtain ⟨s1, hi, c1, c2, _, c4, c5, c6⟩ := slot_block lib s Slot.front m h3
      have c5r := c5 Slot.rear (by decide)
      simp only [SphereDisplay.texture] at c5r c6
      refine ⟨{ updateTexture lib s1 Slot.front with new_front_image_arrived_ := false },
        by simp [hi], ⟨by simp, ?_, c6, ?_⟩, c5r, c2, c4⟩
      · intro h
        simp only at h ⊢
        rw [c2]
        exact h2 (by rw [← c4]; exact h)
      · intro t ht
        simp only at ht
        rw [c5r] at ht
        exact h4 t ht

/-- The rear block of `update` on a settled display: it returns, the display
is settled again, and nothing of the front camera has changed. -/
theorem updateRear_settled (lib : Library) (s : SphereDisplay) (hs : Settled s) :
    ∃ s1, updateRear lib s = some s1 ∧ Settled s1 ∧
      s1.texture_front_ = s.texture_front_ ∧ s1.cur_image_front_ = s.cur_image_front_ ∧
      s1.new_front_image_arrived_ = s.new_front_image_arrived_ ∧
      s1.cur_image_rear_ = s.cur_image_rear_ := by
  obtain ⟨h1, h2, h3, h4⟩ := hs
  unfold updateRear
  cases hflag : s.new_rear_image_arrived_ with
  | false => exact ⟨s, by simp, ⟨h1, by simp [hflag], h3, h4⟩, rfl, rfl, rfl, rfl⟩
  | true =>
    cases hcur : s.cur_image_rear_ with
    | none => exact absurd hcur (h2 hflag)
    | some m =>
      obtain ⟨s1, hi, c1, c2, c3, _, c5, c6⟩ := slot_block lib s Slot.rear m h4
      have c5f := c5 Slot.front (by decide)
      simp only [SphereDisplay.texture] at c5f c6
      refine ⟨{ updateTexture lib s1 Slot.rear with new_rear_image_arrived_ := false },
        by simp [hi], ⟨?_, by simp, ?_, c6⟩, c5f, c1, c3, c2.trans hcur⟩
      · intro h
        simp only at h ⊢
        rw [c1]
        exact h1 (by rw [← c3]; exact h)
      · intro t ht
        simp only at ht
        rw [c5f] at ht
        exact h3 t ht

/-- On a settled display `update` returns, and the display is settled again. -/
theorem update_settled (lib : Library) (s : SphereDisplay) (hs : Settled s) :
    ∃ s1, update lib s = some s1 ∧ Settled s1 := by
  obtain ⟨s1, h1, hs1, _⟩ := updateFront_settled lib s hs
  obtain ⟨s2, h2, hs2, _⟩ := updateRear_settled lib s1 hs1
  exact ⟨s2, by simp [update, h1, h2], hs2⟩

theorem step_settled (lib : Library) (s s1 : SphereDisplay) (e : Event) (hs : Settled s)
    (h : step lib s e = some s1) : Settled s1 := by
  obtain ⟨h1, h2, h3, h4⟩ := hs
  cases e with
  | frontImage image =>
    simp only [step, Option.some.injEq] at h
    subst h
    exact ⟨by simp [updateFrontCameraImage], h2, h3, h4⟩
  | rearImage image =>
    simp only [step, Option.some.injEq] at h
    subst h
    exact ⟨h1, by simp [updateRearCameraImage], h3, h4⟩
  | tick =>
    obtain ⟨s2, hu, hs2⟩ := update_settled lib s ⟨h1, h2, h3, h4⟩
    simp only [step, hu, Option.some.injEq] at h
    subst h
    exact hs2

theorem run_settled (lib : Library) (events : List Event) (s s1 : SphereDisplay)
    (hs : Settled s) (h : run lib s events = some s1) : Settled s1 := by
  induction events generalizing s with
  | nil =>
    simp only [run, Option.some.injEq] at h
    subst h
    exact hs
  | cons e es ih =>
    simp only [run] at h
    cases hstep : step lib s e with
    | none => simp [hstep] at h
    | some s2 =>
      simp only [hstep] at h
      exact ih s2 (step_settled lib s s2 e hs hstep) h

/-- Every state the display can be in is settled. -/
theorem reachable_settled (lib : Library) (s : SphereDisplay) (h : Reachable lib s) :
    Settled s := by
  obtain ⟨material, events, hrun⟩ := h
  exact run_settled lib events _ s (settled_initial material) hrun

theorem updateFront_existing (lib : Library) (s : SphereDisplay) (m rgba : Image)
    (t : ROSImageTexture) (hflag : s.new_front_image_arrived_ = true)
    (hcur : s.cur_image_front_ = some m) (hd : lib.toCvCopy m = some rgba)
    (ht : s.texture_front_ = some t) :
    updateFront lib s = some { s with
      texture_front_ := some ((t.addMessage rgba).update lib)
      new_front_image_arrived_ := false } := by
  have hi := imageToTexture_existing lib s Slot.front m rgba t hd ht
  simp [updateFront, hflag, hcur, hi, updateTexture, SphereDisplay.setTexture,
    SphereDisplay.texture]

theorem updateRear_existing (lib : Library) (s : SphereDisplay) (m rgba : Image)
    (t : ROSImageTexture) (hflag : s.new_rear_image_arrived_ = true)
    (hcur : s.cur_image_rear_ = some m) (hd : lib.toCvCopy m = some rgba)
    (ht : s.texture_rear_ = some t) :
    updateRear lib s = some { s with
      texture_rear_ := some ((t.addMessage rgba).update lib)
      new_rear_image_arrived_ := false } := by
  have hi := imageToTexture_existing lib s Slot.rear m rgba t hd ht
  simp [updateRear, hflag, hcur, hi, updateTexture, SphereDisplay.setTexture,
    SphereDisplay.texture]

theorem updateFront_decode_failure (lib : Library) (s : SphereDisplay) (m : Image)
    (t : ROSImageTexture) (hflag : s.new_front_image_arrived_ = true)
    (hcur : s.cur_image_front_ = some m) (hd : lib.toCvCopy m = none)
    (ht : s.texture_front_ = some t) (hidle : t.new_image_ = false) :
    updateFront lib s = some { s with new_front_image_arrived_ := false } := by
  have hi := imageToTexture_decode_failure lib s Slot.front m hd
  simp [updateFront, hflag, hcur, hi, updateTexture, SphereDisplay.setTexture,
    SphereDisplay.texture, ht, ROSImageTexture.update_idle lib t hidle]

theorem settled_updateCameraImage (s : SphereDisplay) (slot : Slot) (image : Image)
    (hs : Settled s) : Settled (updateCameraImage s slot image) := by
  obtain ⟨h1, h2, h3, h4⟩ := hs
  cases slot
  · exact ⟨by simp [updateCameraImage, updateFrontCameraImage], h2, h3, h4⟩
  · exact ⟨h1, by simp [updateCameraImage, updateRearCameraImage], h3, h4⟩

/-- C6 (as stated, refuted): from the initial display, two front frames
followed by `update` leave a front texture that was created but has been
given no message and shows nothing, although the second frame converts; the
flag is cleared, so the frame will not be handed over later either. -/
theorem update_first_frame_not_handed :
    testLibrary.toCvCopy (testImage Encoding.RGB8 2) = some (testImage Encoding.RGBA8 2) ∧
    ∃ s1 t, run testLibrary (SphereDisplay.initial testMaterial)
        [frontImage (testImage Encoding.RGB8 1), frontImage (testImage Encoding.RGB8 2),
          tick] = some s1 ∧
      s1.texture_front_ = some t ∧ t.current_image_ = none ∧ t.texture_ = none ∧
      t.current_image_ ≠ some (testImage Encoding.RGBA8 2) ∧
      s1.new_front_image_arrived_ = false :=
  ⟨rfl, _, _, rfl, rfl, rfl, rfl, by decide, rfl⟩

/-- C6 (amended): in every state the display can be in and for each camera
whose texture exists already: when two frames `f1`, `f2` arrive for the camera
with no `update` in between, the arrivals hand nothing to a texture and leave
the display as if `f2` alone had arrived; and if `f2` converts, the next
`update` returns and the message the texture of the camera holds is the
converted `f2`, which is also what the texture shows when the message has
data in a known encoding. -/
theorem update_latest_frame (lib : Library) (s : SphereDisplay) (slot : Slot)
    (f1 f2 rgba : Image) (t : ROSImageTexture) (hs : Reachable lib s)
    (ht : s.texture slot = some t) (hd : lib.toCvCopy f2 = some rgba) :
    updateCameraImage (updateCameraImage s slot f1) slot f2 = updateCameraImage s slot f2 ∧
    (updateCameraImage (updateCameraImage s slot f1) slot f2).texture_front_ =
      s.texture_front_ ∧
    (updateCameraImage (updateCameraImage s slot f1) slot f2).texture_rear_ =
      s.texture_rear_ ∧
    ∃ s1 t1, update lib (updateCameraImage (updateCameraImage s slot f1) slot f2) = some s1 ∧
      s1.texture slot = some t1 ∧ t1.current_image_ = some rgba ∧
      (rgba.data ≠ [] → lib.knownEncoding rgba.encoding = true → t1.texture_ = some rgba) := by
  have hset := reachable_settled lib s hs
  have hset2 := settled_updateCameraImage s slot f2 hset
  have harr : updateCameraImage (updateCameraImage s slot f1) slot f2 =
      updateCameraImage s slot f2 := by
    cases slot <;> rfl
  rw [harr]
  refine ⟨rfl, by cases slot <;> rfl, by cases slot <;> rfl, ?_⟩
  obtain ⟨hc, _, htex⟩ := ROSImageTexture.update_addMessage lib t rgba
  cases slot with
  | front =>
    have hf := updateFront_existing lib (updateCameraImage s Slot.front f2) f2 rgba t
      rfl rfl hd ht
    obtain ⟨s1, h1, hs1, _⟩ := updateFront_settled lib _ hset2
    obtain ⟨s2, h2, _, hfront, _⟩ := updateRear_settled lib s1 hs1
    rw [hf, Option.some.injEq] at h1
    refine ⟨s2, (t.addMessage rgba).update lib, by simp [update, hf, h1, h2], ?_, hc, htex⟩
    simp only [SphereDisplay.texture]
    rw [hfront, ← h1]
  | rear =>
    obtain ⟨s1, h1, _, hrear, hcur, hflag⟩ := updateFront_settled lib _ hset2
    have hr := updateRear_existing lib s1 f2 rgba t (by rw [hflag]; rfl) (by rw [hcur]; rfl)
      hd (by rw [hrear]; exact ht)
    exact ⟨{ s1 with
        texture_rear_ := some ((t.addMessage rgba).update lib)
        new_rear_image_arrived_ := false },
      (t.addMessage rgba).update lib, by simp [update, h1, hr], rfl, hc, htex⟩

/-- `testStateFront` is a state the display can be in. -/
theorem reachable_testStateFront : Reachable testLibrary testStateFront :=
  ⟨testMaterial, [frontImage (testImage Encoding.RGB8 1), tick], rfl⟩

/-- C6 at the display that has processed one front frame: two further front
frames, then `update`. -/
theorem update_latest_frame_witness :
    Reachable testLibrary testStateFront ∧
    testStateFront.texture Slot.front = some (ROSImageTexture.new 0) ∧
    testLibrary.toCvCopy (testImage Encoding.RGB8 3) = some (testImage Encoding.RGBA8 3) ∧
    ∃ s1 t1, update testLibrary (updateCameraImage (updateCameraImage testStateFront
        Slot.front (testImage Encoding.RGB8 2)) Slot.front (testImage Encoding.RGB8 3)) =
        some s1 ∧
      s1.texture Slot.front = some t1 ∧
      t1.current_image_ = some (testImage Encoding.RGBA8 3) ∧
      t1.texture_ = some (testImage Encoding.RGBA8 3) := by
  obtain ⟨_, _, _, s1, t1, h1, h2, h3, h4⟩ := update_latest_frame testLibrary testStateFront
    Slot.front (testImage Encoding.RGB8 2) (testImage Encoding.RGB8 3)
    (testImage Encoding.RGBA8 3) (ROSImageTexture.new 0) reachable_testStateFront rfl rfl
  exact ⟨reachable_testStateFront, rfl, rfl, s1, t1, h1, h2, h3, h4 (by decide) rfl⟩

/-- C7 (the code at the failing input): from the initial display with a
material of two texture unit states, a rear frame followed by `update` creates
the rear texture (address 0) and installs it in texture unit 0, leaving unit 1
without a texture; a front frame and `update` after that create the front
texture (address 1) and install it in unit 0 again, so that unit 0 is bound
twice and unit 1 never. -/
theorem rear_first_binds_unit_zero :
    (run testLibrary (SphereDisplay.initial testMaterial)
        [rearImage (testImage Encoding.RGB8 1), tick]).map
      (fun s => (ptr s.texture_front_, ptr s.texture_rear_, s.sphere_material_)) =
      some (none, some 0, some { pass := some { textureUnitStates := [some 0, none] } }) ∧
    (run testLibrary (SphereDisplay.initial testMaterial)
        [rearImage (testImage Encoding.RGB8 1), tick,
          frontImage (testImage Encoding.RGB8 2), tick]).map
      (fun s => (ptr s.texture_front_, ptr s.texture_rear_, s.sphere_material_)) =
      some (some 1, some 0, some { pass := some { textureUnitStates := [some 1, none] } }) :=
  ⟨by decide, by decide⟩

/-- C8: in every state the display can be in in which both cameras have a
texture: when the pending front frame cannot be converted, the front block of
`update` changes nothing but the flag, `update` returns, the front texture is
the one it was (same message, same picture), the rear image is the one it was,
and so is the rear texture unless a rear frame of its own is pending. -/
theorem update_front_decode_failure (lib : Library) (s : SphereDisplay) (f : Image)
    (tf tr : ROSImageTexture) (hs : Reachable lib s) (hf : s.texture_front_ = some tf)
    (hr : s.texture_rear_ = some tr) (hflag : s.new_front_image_arrived_ = true)
    (hcur : s.cur_image_front_ = some f) (hd : lib.toCvCopy f = none) :
    updateFront lib s = some { s with new_front_image_arrived_ := false } ∧
    ∃ s1, update lib s = some s1 ∧ s1.texture_front_ = some tf ∧
      s1.cur_image_rear_ = s.cur_image_rear_ ∧
      (s.new_rear_image_arrived_ = false → s1.texture_rear_ = some tr) := by
  have hset := reachable_settled lib s hs
  have hfront := updateFront_decode_failure lib s f tf hflag hcur hd hf (hset.2.2.1 tf hf)
  obtain ⟨s1, h1, hs1, _⟩ := updateFront_settled lib s hset
  obtain ⟨s2, h2, _, hfr, _, _, hcr⟩ := updateRear_settled lib s1 hs1
  rw [hfront, Option.some.injEq] at h1
  subst h1
  refine ⟨hfront, s2, by simp [update, hfront, h2], by rw [hfr]; exact hf, hcr, ?_⟩
  intro hno
  simp only [updateRear, hno] at h2
  simp only [Bool.false_eq_true, if_false, Option.some.injEq] at h2
  subst h2
  exact hr

/-- `testStateBoth` is a state the display can be in. -/
theorem reachable_testStateBoth : Reachable testLibrary testStateBoth :=
  ⟨testMaterial,
    [frontImage (testImage Encoding.RGB8 1), tick, frontImage (testImage Encoding.RGB8 1),
      tick, rearImage (testImage Encoding.RGB8 2), tick,
      rearImage (testImage Encoding.RGB8 2), tick,
      frontImage (testImage Encoding.TYPE_32FC1 7)], rfl⟩

/-- C8 at the display in which both textures show a frame and a front frame
in the encoding `TYPE_32FC1` is pending. -/
theorem update_front_decode_failure_witness :
    Reachable testLibrary testStateBoth ∧
    testStateBoth.new_front_image_arrived_ = true ∧
    testLibrary.toCvCopy (testImage Encoding.TYPE_32FC1 7) = none ∧
    ∃ s1, update testLibrary testStateBoth = some s1 ∧
      s1.texture_front_ = testStateBoth.texture_front_ ∧
      s1.texture_rear_ = testStateBoth.texture_rear_ := by
  obtain ⟨_, s1, h1, h2, _, h4⟩ := update_front_decode_failure testLibrary testStateBoth
    (testImage Encoding.TYPE_32FC1 7) _ _ reachable_testStateBoth rfl rfl rfl rfl rfl
  exact ⟨reachable_testStateBoth, rfl, rfl, s1, h1, h2, h4 rfl⟩

end Pipeline

end rviz
